import Mathlib

/-!
The up command of kubevela (pkg/commands/up.go): a shallow embedding of
`appfileOptions.Run`, `ApplyAppConfig`, `apply` and `info`.

* Every observable action of the Go code (a line written to the output stream, a call to a
  loader, to the file system or to the cluster) is appended to a chronological trace; the
  content of the files is part of the state.
* The collaborators that are not part of the file (appfile loading, template loading,
  `BuildOAM`, `yaml.Marshal`, `filepath.Dir`, `os.MkdirAll`, `ioutil.WriteFile`, the cluster
  client, the two `application.CreateOrUpdate...` helpers, `apierrors.IsNotFound`,
  `emojiRocket`) are parameters, so every statement holds for every behaviour of theirs. The
  answers of the cluster may depend on every request it has received before.
* A pointer to a resource is modelled by the resource it points to, and is not nil; the write
  of `TypeMeta` through a pointer in the loop of `Run` is modelled by replacing the list
  element. The upsert helpers may write into the object they are given (a resource version,
  for instance); they keep its name, the only field that is read afterwards.
* The bytes of the buffer `cfg` are modelled by a string.
-/

namespace Up

/-! ## Data model -/

/-- Go errors. `New` is an error value produced by a collaborator, `wrapError` is the value
built by `fmt.Errorf` with a `%w` verb: it stores the formatted message and the cause. -/
inductive Error where
  | New (msg : String)
  | wrapError (msg : String) (err : Error)
  deriving DecidableEq, Repr

/-- The method `Error()` of a Go error: its message. -/
def Error.ErrorString : Error → String
  | .New msg => msg
  | .wrapError msg _ => msg

/-- The call `fmt.Errorf(format, ..., err)` for a format that ends in `: %w`; `text` is the
format with its other verbs already substituted and without the final `%w`. -/
def Errorf (text : String) (err : Error) : Error :=
  .wrapError (text ++ err.ErrorString) err

/-- The type `metav1.TypeMeta`. -/
structure TypeMeta where
  APIVersion : String
  Kind : String
  deriving DecidableEq, Repr

/-- The part of `v1alpha2.ApplicationConfiguration` the command reads or writes, with the
component references of its spec. -/
structure ApplicationConfiguration where
  TypeMeta : TypeMeta
  Namespace : String
  Name : String
  Components : List String
  deriving DecidableEq, Repr

/-- The part of `v1alpha2.Component` the command reads or writes, with its workload. -/
structure Component where
  TypeMeta : TypeMeta
  Namespace : String
  Name : String
  Workload : String
  deriving DecidableEq, Repr

/-- The type `apitypes.NamespacedName`. -/
structure NamespacedName where
  Namespace : String
  Name : String
  deriving DecidableEq, Repr

/-- The type `types.EnvMeta`, with the two fields the command reads. -/
structure EnvMeta where
  Namespace : String
  Domain : String
  deriving DecidableEq, Repr

/-- The value `v1alpha2.ApplicationConfigurationGroupVersionKind.GroupVersion().String()`
together with `v1alpha2.ApplicationConfigurationKind`. -/
def applicationConfigurationTypeMeta : TypeMeta :=
  { APIVersion := "core.oam.dev/v1alpha2", Kind := "ApplicationConfiguration" }

/-- The value `v1alpha2.ComponentGroupVersionKind.GroupVersion().String()` together with
`v1alpha2.ComponentKind`. -/
def componentTypeMeta : TypeMeta :=
  { APIVersion := "core.oam.dev/v1alpha2", Kind := "Component" }

/-! ## Traces -/

/-- A request sent to the cluster. -/
inductive ClusterCall where
  | Get (key : NamespacedName)
  | CreateOrUpdateComponent (comp : Component)
  | CreateOrUpdateAppConfig (ac : ApplicationConfiguration)
  deriving DecidableEq, Repr

/-- An observable action of the command. -/
inductive Event where
  | Info (line : String)
  | Infof (text : String)
  | LoadFromFile (filePath : String)
  | Load
  | TemplateLoad
  | BuildOAM (ns : String) (diag : List String)
  | MkdirAll (path : String) (perm : Nat)
  | WriteFile (filename : String) (data : String) (perm : Nat)
  | Cluster (call : ClusterCall)
  deriving DecidableEq, Repr

/-- The requests sent to the cluster, in order. -/
def clusterCalls (tr : List Event) : List ClusterCall :=
  tr.filterMap fun
    | .Cluster c => some c
    | _ => none

/-- The writes (upserts) among cluster requests. -/
def ClusterCall.isWrite : ClusterCall → Bool
  | .Get _ => false
  | .CreateOrUpdateComponent _ => true
  | .CreateOrUpdateAppConfig _ => true

/-- An upsert of a component. -/
def ClusterCall.isComponentUpsert : ClusterCall → Bool
  | .CreateOrUpdateComponent _ => true
  | _ => false

/-- An upsert of the configuration resource. -/
def ClusterCall.isAppConfigUpsert : ClusterCall → Bool
  | .CreateOrUpdateAppConfig _ => true
  | _ => false

/-- The cluster writes of a trace, in order. -/
def writes (tr : List Event) : List ClusterCall :=
  (clusterCalls tr).filter ClusterCall.isWrite

/-- The file system actions of a trace. -/
def Event.isFileOp : Event → Bool
  | .MkdirAll _ _ => true
  | .WriteFile _ _ _ => true
  | _ => false

/-- The lines written to the output stream by the command itself. -/
def logs (tr : List Event) : List String :=
  tr.filterMap fun
    | .Info s => some s
    | .Infof s => some s
    | _ => none

/-- The state threaded through the command: the trace so far and the content of the files. -/
structure State where
  trace : List Event
  fs : String → Option String

/-- Append one action to the trace. -/
def State.emit (st : State) (e : Event) : State :=
  { st with trace := st.trace ++ [e] }

/-- The actions added to the trace between two states. -/
def emitted (st st2 : State) : List Event :=
  st2.trace.drop st.trace.length

/-! ## Collaborators -/

/-- The cluster client `client.Client` together with the upsert helpers of package
`application`, which take the client as an argument. Each answer may depend on every request
sent to the cluster before. `Get` yields the object read and the error. -/
structure Client where
  Get : List ClusterCall → NamespacedName → ApplicationConfiguration × Option Error
  CreateOrUpdateComponent : List ClusterCall → Component → Option Error
  CreateOrUpdateAppConfig : List ClusterCall → ApplicationConfiguration → Option Error

/-- The outcome of `ioutil.WriteFile`: success, or an error together with what the file holds
afterwards (nothing, its old content, or a truncated or incomplete content). -/
inductive WriteOutcome where
  | ok
  | failed (err : Error) (left : Option String)

/-- The packages imported by up.go. `AppFile` is `appfile.AppFile`, `TM` is the template
manager returned by `template.Load`. Each of these functions is called at most once by a run,
so its answer is a function of its arguments. `BuildOAM` also yields the diagnostic lines it
writes. -/
structure Deps (AppFile TM : Type) where
  emojiRocket : String
  IsNotFound : Error → Bool
  LoadFromFile : String → Except Error AppFile
  Load : Except Error AppFile
  templateLoad : Except Error TM
  BuildOAM : AppFile → String → TM → Bool →
    List String × Except Error (List Component × ApplicationConfiguration)
  MarshalAppConfig : ApplicationConfiguration → Except Error String
  MarshalComponent : Component → Except Error String
  Dir : String → String
  MkdirAll : String → Nat → Option Error
  WriteFile : String → String → Nat → WriteOutcome

/-- The receiver `appfileOptions`; its field for the output stream is the trace. -/
structure appfileOptions where
  Kubecli : Client
  Env : EnvMeta

/-! ## Calls to the collaborators -/

/-- The call `o.IO.Info(line)`. -/
def Info (st : State) (line : String) : State :=
  st.emit (.Info line)

/-- The call `o.IO.Infof(...)`; `text` is the formatted text. -/
def Infof (st : State) (text : String) : State :=
  st.emit (.Infof text)

/-- The call `apierrors.IsNotFound(err)`; it is false on the nil error. -/
def IsNotFound {AppFile TM : Type} (d : Deps AppFile TM) : Option Error → Bool
  | none => false
  | some err => d.IsNotFound err

/-- The call `o.Kubecli.Get(context.TODO(), key, &tmpAC)`. -/
def Get (k : Client) (st : State) (key : NamespacedName) :
    (ApplicationConfiguration × Option Error) × State :=
  (k.Get (clusterCalls st.trace) key, st.emit (.Cluster (.Get key)))

/-- The call `application.CreateOrUpdateComponent(context.TODO(), o.Kubecli, comp)`. -/
def CreateOrUpdateComponent (k : Client) (st : State) (comp : Component) :
    Option Error × State :=
  (k.CreateOrUpdateComponent (clusterCalls st.trace) comp,
    st.emit (.Cluster (.CreateOrUpdateComponent comp)))

/-- The call `application.CreateOrUpdateAppConfig(context.TODO(), o.Kubecli, ac)`. -/
def CreateOrUpdateAppConfig (k : Client) (st : State) (ac : ApplicationConfiguration) :
    Option Error × State :=
  (k.CreateOrUpdateAppConfig (clusterCalls st.trace) ac,
    st.emit (.Cluster (.CreateOrUpdateAppConfig ac)))

/-- The call `os.MkdirAll(path, perm)`. -/
def MkdirAll {AppFile TM : Type} (d : Deps AppFile TM) (st : State) (path : String)
    (perm : Nat) : Option Error × State :=
  (d.MkdirAll path perm, st.emit (.MkdirAll path perm))

/-- The call `ioutil.WriteFile(filename, data, perm)`: on success the file is created or
truncated and holds exactly `data`. -/
def WriteFile {AppFile TM : Type} (d : Deps AppFile TM) (st : State) (filename data : String)
    (perm : Nat) : Option Error × State :=
  let st := st.emit (.WriteFile filename data perm)
  match d.WriteFile filename data perm with
  | .ok => (none, { st with fs := Function.update st.fs filename (some data) })
  | .failed err left => (some err, { st with fs := Function.update st.fs filename left })

/-! ## The functions of up.go -/

/-- The method `info` (lines 177-184). -/
def info {AppFile TM : Type} (d : Deps AppFile TM) (o : appfileOptions) (st : State)
    (name : String) : State :=
  let st := Infof st
    ("app has been deployed " ++ d.emojiRocket ++ d.emojiRocket ++ d.emojiRocket ++ "\n")
  let st := Infof st ("\tURL: http://" ++ o.Env.Domain ++ "/\n")
  let st := Infof st ("\tPort forward: vela listen " ++ name ++ " <port>\n")
  let st := Infof st ("\tSSH: vela exec " ++ name ++ "\n")
  let st := Infof st ("\tLogging: vela logs " ++ name ++ "\n")
  Infof st "\tMetric: TODO\n"

/-- The method `apply` (lines 168-175): the loop over `comps`, then the upsert of `ac`. -/
def apply (o : appfileOptions) (ac : ApplicationConfiguration) :
    List Component → State → Option Error × State
  | [], st => CreateOrUpdateAppConfig o.Kubecli st ac
  | comp :: comps, st =>
    match CreateOrUpdateComponent o.Kubecli st comp with
    | (some err, st) => (some err, st)
    | (none, st) => apply o ac comps st

/-- The method `ApplyAppConfig` (lines 145-166). -/
def ApplyAppConfig {AppFile TM : Type} (d : Deps AppFile TM) (o : appfileOptions)
    (st : State) (ac : ApplicationConfiguration) (comps : List Component) :
    Option Error × State :=
  let key : NamespacedName := { Namespace := ac.Namespace, Name := ac.Name }
  let st := Infof st "\nChecking if app has been deployed...\n"
  match Get o.Kubecli st key with
  | ((_tmpAC, err), st) =>
    let branch : Option State :=
      if IsNotFound d err then
        some (Infof st "app has not been deployed, creating a new deployment...\n")
      else if err = none then
        some (Infof st "app existed, updating existing deployment...\n")
      else
        none
    match branch with
    | none => (err, st)
    | some st =>
      match apply o ac comps st with
      | (some err, st) => (some err, st)
      | (none, st) =>
        let st := info d o st ac.Name
        (none, st)

/-- The loop of `Run` over `comps` (lines 113-125): it appends to the buffer `cfg` and writes
the type tag through each pointer, so it yields the buffer and the components as they are
after the loop. -/
def marshalComps {AppFile TM : Type} (d : Deps AppFile TM) :
    List Component → String → Except Error (String × List Component)
  | [], cfg => .ok (cfg, [])
  | comp :: comps, cfg =>
    let cfg := cfg ++ "---\n"
    let comp := { comp with TypeMeta := componentTypeMeta }
    match d.MarshalComponent comp with
    | .error err => .error (Errorf ("marshal service (" ++ comp.Name ++ ") failed: ") err)
    | .ok b =>
      let cfg := cfg ++ b
      let cfg := cfg ++ "\n"
      match marshalComps d comps cfg with
      | .error err => .error err
      | .ok (cfg, comps) => .ok (cfg, comp :: comps)

/-- The lines 100-125 of `Run`: the buffer `cfg` at the end, and `appConfig` and `comps` as
they are after the tags are written. -/
def serialize {AppFile TM : Type} (d : Deps AppFile TM) (appConfig : ApplicationConfiguration)
    (comps : List Component) :
    Except Error (String × ApplicationConfiguration × List Component) :=
  let cfg := ""
  let appConfig := { appConfig with TypeMeta := applicationConfigurationTypeMeta }
  match d.MarshalAppConfig appConfig with
  | .error err => .error (Errorf "marshal AppConfig failed: " err)
  | .ok b =>
    let cfg := cfg ++ b
    let cfg := cfg ++ "\n"
    match marshalComps d comps cfg with
    | .error err => .error err
    | .ok (cfg, comps) => .ok (cfg, appConfig, comps)

/-- The method `Run` (lines 75-138). -/
def Run {AppFile TM : Type} (d : Deps AppFile TM) (o : appfileOptions) (st : State)
    (filePath : String) : Option Error × State :=
  let st := Info st "Parsing vela.yaml ..."
  let loaded : Except Error AppFile × State :=
    if filePath ≠ "" then
      (d.LoadFromFile filePath, st.emit (.LoadFromFile filePath))
    else
      (d.Load, st.emit .Load)
  match loaded with
  | (.error err, st) => (some err, st)
  | (.ok app, st) =>
    let st := Info st "Loading templates ..."
    let st := st.emit .TemplateLoad
    match d.templateLoad with
    | .error err => (some err, st)
    | .ok tm =>
      match d.BuildOAM app o.Env.Namespace tm false with
      | (diag, built) =>
        let st := st.emit (.BuildOAM o.Env.Namespace diag)
        match built with
        | .error err => (some err, st)
        | .ok (comps, appConfig) =>
          match serialize d appConfig comps with
          | .error err => (some err, st)
          | .ok (cfg, appConfig, comps) =>
            let deployFilePath := ".vela/deploy.yaml"
            let st := Infof st ("writing deploy config to (" ++ deployFilePath ++ ")\n")
            match MkdirAll d st (d.Dir deployFilePath) 0o700 with
            | (some err, st) => (some err, st)
            | (none, st) =>
              match WriteFile d st deployFilePath cfg 0o600 with
              | (some err, st) => (some err, st)
              | (none, st) =>
                let st := Infof st "\nApplying deploy configs ...\n"
                ApplyAppConfig d o st appConfig comps

/-! ## Vocabulary of the statements -/

/-- The state `st` with the actions `evs` added to its trace. -/
def State.extend (st : State) (evs : List Event) : State :=
  { st with trace := st.trace ++ evs }

/-- The upsert requests of a list of components, in order. -/
def compCalls (comps : List Component) : List ClusterCall :=
  comps.map ClusterCall.CreateOrUpdateComponent

/-- The actions of the method `info`. -/
def infoEvents {AppFile TM : Type} (d : Deps AppFile TM) (o : appfileOptions) (name : String) :
    List Event :=
  [ .Infof ("app has been deployed " ++ d.emojiRocket ++ d.emojiRocket ++ d.emojiRocket ++ "\n"),
    .Infof ("\tURL: http://" ++ o.Env.Domain ++ "/\n"),
    .Infof ("\tPort forward: vela listen " ++ name ++ " <port>\n"),
    .Infof ("\tSSH: vela exec " ++ name ++ "\n"),
    .Infof ("\tLogging: vela logs " ++ name ++ "\n"),
    .Infof "\tMetric: TODO\n" ]

/-- The key of the lookup made by `ApplyAppConfig`. -/
def lookupKey (ac : ApplicationConfiguration) : NamespacedName :=
  { Namespace := ac.Namespace, Name := ac.Name }

/-- The first actions of `ApplyAppConfig` when the lookup does not abort: the line that
announces the check, the lookup, and the line `line` that tells the branch taken. -/
def lookupEvents (ac : ApplicationConfiguration) (line : String) : List Event :=
  [ .Infof "\nChecking if app has been deployed...\n",
    .Cluster (.Get (lookupKey ac)),
    .Infof line ]

/-- Create-before-reference on a sequence of cluster writes: every component upsert stands
strictly before every upsert of the configuration resource, an upsert of the configuration
resource is the last write, and there is at most one. -/
def CreateBeforeReference (ws : List ClusterCall) : Prop :=
  (∀ i j (hi : i < ws.length) (hj : j < ws.length),
    ws[i].isComponentUpsert = true → ws[j].isAppConfigUpsert = true → i < j) ∧
  (∀ j (hj : j < ws.length), ws[j].isAppConfigUpsert = true → j + 1 = ws.length) ∧
  (ws.filter ClusterCall.isAppConfigUpsert).length ≤ 1

/-- Every upsert that `apply` can issue for the bundle succeeds, when the cluster has received
the requests `hist` before: each component upsert, sent after those of the components before
it, and then the upsert of the configuration resource. -/
def AllUpsertsSucceed (k : Client) (hist : List ClusterCall) (ac : ApplicationConfiguration)
    (comps : List Component) : Prop :=
  (∀ i (hi : i < comps.length),
    k.CreateOrUpdateComponent (hist ++ compCalls (comps.take i)) comps[i] = none) ∧
  k.CreateOrUpdateAppConfig (hist ++ compCalls comps) ac = none

/-- The line of the branch where the lookup finds nothing. -/
def notDeployedLine : String := "app has not been deployed, creating a new deployment...\n"

/-- The line of the branch where the lookup finds the application. -/
def existedLine : String := "app existed, updating existing deployment...\n"

/-- The result of `apply` and the requests it sends, as a function of the requests the cluster
has received before: a proof device, related to `apply` by `apply_eq`. -/
def applyOutcome (k : Client) (ac : ApplicationConfiguration) :
    List Component → List ClusterCall → Option Error × List ClusterCall
  | [], hist => (k.CreateOrUpdateAppConfig hist ac, [.CreateOrUpdateAppConfig ac])
  | c :: cs, hist =>
    match k.CreateOrUpdateComponent hist c with
    | some e => (some e, [.CreateOrUpdateComponent c])
    | none =>
      ((applyOutcome k ac cs (hist ++ [.CreateOrUpdateComponent c])).1,
        .CreateOrUpdateComponent c :: (applyOutcome k ac cs (hist ++ [.CreateOrUpdateComponent c])).2)

/-- The configuration resource with the tag that `Run` writes into it. -/
def tagAppConfig (c : ApplicationConfiguration) : ApplicationConfiguration :=
  { c with TypeMeta := applicationConfigurationTypeMeta }

/-- A component with the tag that `Run` writes into it. -/
def tagComponent (k : Component) : Component :=
  { k with TypeMeta := componentTypeMeta }

/-- The documents of the components in the deploy file, from their encodings: for each one, in
order, a boundary line, the encoding, a newline. -/
def componentDocs : List String → String
  | [] => ""
  | e :: es => "---\n" ++ e ++ "\n" ++ componentDocs es

/-- The documents `docs` with one boundary line between every two neighbours. -/
def joinDocs : List String → String
  | [] => ""
  | [doc] => doc
  | doc :: docs => doc ++ "---\n" ++ joinDocs docs

/-- The result of the load step of `Run`: `LoadFromFile` on a path, `Load` without one. -/
def loadResult {AppFile TM : Type} (d : Deps AppFile TM) (filePath : String) :
    Except Error AppFile :=
  if filePath ≠ "" then d.LoadFromFile filePath else d.Load

/-- The action of the load step of `Run`. -/
def loadEvent (filePath : String) : Event :=
  if filePath ≠ "" then .LoadFromFile filePath else .Load

/-- The actions of `Run` up to the build step, when it is reached. -/
def buildEvents (filePath ns : String) (diag : List String) : List Event :=
  [ .Info "Parsing vela.yaml ...", loadEvent filePath, .Info "Loading templates ...",
    .TemplateLoad, .BuildOAM ns diag ]

/-- The actions of `Run` from the serialized bundle `cfg` to the call of `ApplyAppConfig`. -/
def writeEvents {AppFile TM : Type} (d : Deps AppFile TM) (cfg : String) : List Event :=
  [ .Infof "writing deploy config to (.vela/deploy.yaml)\n",
    .MkdirAll (d.Dir ".vela/deploy.yaml") 0o700,
    .WriteFile ".vela/deploy.yaml" cfg 0o600,
    .Infof "\nApplying deploy configs ...\n" ]

/-- The method `Run` fails with `err` and sends nothing to the cluster. -/
def RunFailsWith {AppFile TM : Type} (d : Deps AppFile TM) (o : appfileOptions) (st : State)
    (filePath : String) (err : Error) : Prop :=
  (Run d o st filePath).1 = some err ∧ clusterCalls (emitted st (Run d o st filePath).2) = []

/-! ## The cluster as a store -/

/-- Modelled from the spec: the cluster client and the helpers `CreateOrUpdateComponent` and
`CreateOrUpdateAppConfig` of package `application` are not in up.go. The spec describes the
cluster as an object store keyed by namespace, name and kind; this is the kind. -/
inductive Kind where
  | ApplicationConfiguration
  | Component
  deriving DecidableEq, Repr

/-- Modelled from the spec: the key of a stored object, made of kind, namespace and name. -/
structure ResourceKey where
  kind : Kind
  Namespace : String
  Name : String
  deriving DecidableEq, Repr

/-- Modelled from the spec: a stored object, either a configuration resource or a
component. -/
inductive Resource where
  | appConfig (ac : ApplicationConfiguration)
  | component (comp : Component)
  deriving DecidableEq, Repr

/-- Modelled from the spec: the state of the cluster, the object stored under each key. -/
abbrev Cluster := ResourceKey → Option Resource

/-- Modelled from the spec: the cluster that stores nothing. -/
def emptyCluster : Cluster := fun _ => none

/-- Modelled from the spec: the upsert, create-if-absent-else-replace: afterwards the key
holds the new object, whatever it held before, and no other key changes. -/
def upsert (s : Cluster) (key : ResourceKey) (r : Resource) : Cluster :=
  Function.update s key (some r)

/-- Modelled from the spec: the effect of one request on the store. A lookup changes nothing;
an upsert stores the resource under its kind, namespace and name. -/
def clusterStep (s : Cluster) : ClusterCall → Cluster
  | .Get _ => s
  | .CreateOrUpdateComponent comp =>
    upsert s { kind := .Component, Namespace := comp.Namespace, Name := comp.Name }
      (.component comp)
  | .CreateOrUpdateAppConfig ac =>
    upsert s { kind := .ApplicationConfiguration, Namespace := ac.Namespace, Name := ac.Name }
      (.appConfig ac)

/-- Modelled from the spec: the store after the requests `calls`, from the store `s`. -/
def clusterAfter (s : Cluster) (calls : List ClusterCall) : Cluster :=
  calls.foldl clusterStep s

/-- The zero value of `v1alpha2.ApplicationConfiguration`, which `tmpAC` holds when the lookup
reads nothing. -/
def zeroAppConfig : ApplicationConfiguration :=
  { TypeMeta := { APIVersion := "", Kind := "" }, Namespace := "", Name := "", Components := [] }

/-- Modelled from the spec: a client in front of the store that starts as `s0`. The lookup
reads the configuration resource stored under the key, or fails with the error `nf` when
there is none; every upsert succeeds. -/
def storeClient (s0 : Cluster) (nf : Error) : Client :=
  { Get := fun hist key =>
      match clusterAfter s0 hist
        { kind := .ApplicationConfiguration, Namespace := key.Namespace, Name := key.Name } with
      | some (.appConfig ac) => (ac, none)
      | _ => (zeroAppConfig, some nf)
    CreateOrUpdateComponent := fun _ _ => none
    CreateOrUpdateAppConfig := fun _ _ => none }

/-- The store `s` overlaid with the objects of `w`. -/
def overlay (w s : Cluster) : Cluster :=
  fun key =>
    match w key with
    | some r => some r
    | none => s key

/-! ## A concrete bundle and concrete collaborators -/

/-- The component `web` of namespace `demo`, as a builder hands it over (no type tag yet). -/
def webComp : Component :=
  { TypeMeta := { APIVersion := "", Kind := "" }, Namespace := "demo", Name := "web",
    Workload := "image: nginx" }

/-- The component `cache` of namespace `demo`. -/
def cacheComp : Component :=
  { TypeMeta := { APIVersion := "", Kind := "" }, Namespace := "demo", Name := "cache",
    Workload := "image: redis" }

/-- The configuration resource `app` of namespace `demo`, which refers to `web` and `cache`. -/
def demoApp : ApplicationConfiguration :=
  { TypeMeta := { APIVersion := "", Kind := "" }, Namespace := "demo", Name := "app",
    Components := ["web", "cache"] }

/-- An older configuration resource `app`, which refers to `old` only. -/
def storedApp : ApplicationConfiguration :=
  { TypeMeta := applicationConfigurationTypeMeta, Namespace := "demo", Name := "app",
    Components := ["old"] }

/-- The error of a lookup that finds nothing. -/
def notFoundError : Error := .New "applicationconfigurations \"app\" not found"

/-- An environment. -/
def demoEnv : EnvMeta := { Namespace := "demo", Domain := "example.com" }

/-- A state with an empty trace and no file. -/
def emptyState : State := { trace := [], fs := fun _ => none }

/-- A client whose lookup finds nothing, which refuses the component `cache` and accepts every
other upsert. -/
def cacheFailsClient : Client :=
  { Get := fun _ _ => (demoApp, some notFoundError)
    CreateOrUpdateComponent := fun _ c => if c.Name = "cache" then some (.New "boom") else none
    CreateOrUpdateAppConfig := fun _ _ => none }

/-- A client whose lookup fails with `err` (or succeeds when `err` is nil, reading
`storedApp`) and which accepts every upsert. -/
def lookupClient (err : Option Error) : Client :=
  { Get := fun _ _ => (storedApp, err)
    CreateOrUpdateComponent := fun _ _ => none
    CreateOrUpdateAppConfig := fun _ _ => none }

/-- Collaborators for the examples: encoders that write the name and the kind, loaders that
succeed, a builder that yields `web`, `cache` and `app`, a file system that accepts all. -/
def demoDeps : Deps Unit Unit :=
  { emojiRocket := ":rocket"
    IsNotFound := fun e => e = notFoundError
    LoadFromFile := fun _ => .ok ()
    Load := .ok ()
    templateLoad := .ok ()
    BuildOAM := fun _ _ _ _ => ([], .ok ([webComp, cacheComp], demoApp))
    MarshalAppConfig := fun c => .ok ("kind: " ++ c.TypeMeta.Kind ++ "\nname: " ++ c.Name)
    MarshalComponent := fun c => .ok ("kind: " ++ c.TypeMeta.Kind ++ "\nname: " ++ c.Name)
    Dir := fun _ => ".vela"
    MkdirAll := fun _ _ => none
    WriteFile := fun _ _ _ => .ok }

/-- A configuration resource named `frontend`. -/
def frontendApp : ApplicationConfiguration :=
  { TypeMeta := { APIVersion := "", Kind := "" }, Namespace := "demo", Name := "frontend",
    Components := ["web", "cache"] }

/-- Collaborators whose encoder fails with `boom` on every configuration resource, and whose
builder yields `web`, `cache` and `frontend`. -/
def appConfigEncoderFails : Deps Unit Unit :=
  { demoDeps with
    BuildOAM := fun _ _ _ _ => ([], .ok ([webComp, cacheComp], frontendApp))
    MarshalAppConfig := fun _ => .error (.New "boom") }

/-- Collaborators whose encoder fails with `boom` on the component `cache`. -/
def cacheEncoderFails : Deps Unit Unit :=
  { demoDeps with
    MarshalComponent := fun c =>
      if c.Name = "cache" then .error (.New "boom")
      else .ok ("kind: " ++ c.TypeMeta.Kind ++ "\nname: " ++ c.Name) }

/-! ## Basic facts on traces -/

@[simp] theorem State.emit_eq_extend (st : State) (e : Event) : st.emit e = st.extend [e] := rfl

@[simp] theorem State.extend_trace (st : State) (evs : List Event) :
    (st.extend evs).trace = st.trace ++ evs := rfl

@[simp] theorem State.extend_fs (st : State) (evs : List Event) :
    (st.extend evs).fs = st.fs := rfl

@[simp] theorem State.extend_extend (st : State) (a b : List Event) :
    (st.extend a).extend b = st.extend (a ++ b) := by
  simp [State.extend]

@[simp] theorem emitted_extend (st : State) (evs : List Event) :
    emitted st (st.extend evs) = evs := by
  simp [emitted]

@[simp] theorem clusterCalls_nil : clusterCalls [] = [] := rfl

@[simp] theorem clusterCalls_append (a b : List Event) :
    clusterCalls (a ++ b) = clusterCalls a ++ clusterCalls b := by
  simp [clusterCalls]

@[simp] theorem clusterCalls_cons_cluster (c : ClusterCall) (tr : List Event) :
    clusterCalls (.Cluster c :: tr) = c :: clusterCalls tr := by
  simp [clusterCalls]

@[simp] theorem clusterCalls_cons_infof (s : String) (tr : List Event) :
    clusterCalls (.Infof s :: tr) = clusterCalls tr := by
  simp [clusterCalls]

@[simp] theorem clusterCalls_map_cluster (cs : List ClusterCall) :
    clusterCalls (cs.map Event.Cluster) = cs := by
  induction cs with
  | nil => rfl
  | cons c cs ih => simp [ih]

@[simp] theorem clusterCalls_infoEvents {AppFile TM : Type} (d : Deps AppFile TM)
    (o : appfileOptions) (name : String) : clusterCalls (infoEvents d o name) = [] := by
  simp [infoEvents]

@[simp] theorem compCalls_nil : compCalls [] = [] := rfl

@[simp] theorem compCalls_cons (c : Component) (cs : List Component) :
    compCalls (c :: cs) = .CreateOrUpdateComponent c :: compCalls cs := rfl

@[simp] theorem compCalls_append (a b : List Component) :
    compCalls (a ++ b) = compCalls a ++ compCalls b := by
  simp [compCalls]

@[simp] theorem compCalls_length (cs : List Component) : (compCalls cs).length = cs.length := by
  simp [compCalls]

theorem filter_isWrite_compCalls (cs : List Component) :
    (compCalls cs).filter ClusterCall.isWrite = compCalls cs := by
  induction cs with
  | nil => rfl
  | cons c cs ih => simp [ClusterCall.isWrite, ih]

theorem info_eq {AppFile TM : Type} (d : Deps AppFile TM) (o : appfileOptions) (st : State)
    (name : String) : info d o st name = st.extend (infoEvents d o name) := by
  simp [info, Infof, infoEvents]

/-! ## The method apply -/

theorem apply_nil (o : appfileOptions) (ac : ApplicationConfiguration) (st : State) :
    apply o ac [] st =
      (o.Kubecli.CreateOrUpdateAppConfig (clusterCalls st.trace) ac,
        st.extend [.Cluster (.CreateOrUpdateAppConfig ac)]) := by
  simp [apply, CreateOrUpdateAppConfig]

theorem apply_cons_fail (o : appfileOptions) (ac : ApplicationConfiguration) (c : Component)
    (cs : List Component) (st : State) (e : Error)
    (h : o.Kubecli.CreateOrUpdateComponent (clusterCalls st.trace) c = some e) :
    apply o ac (c :: cs) st = (some e, st.extend [.Cluster (.CreateOrUpdateComponent c)]) := by
  simp [apply, CreateOrUpdateComponent, h]

theorem apply_cons_ok (o : appfileOptions) (ac : ApplicationConfiguration) (c : Component)
    (cs : List Component) (st : State)
    (h : o.Kubecli.CreateOrUpdateComponent (clusterCalls st.trace) c = none) :
    apply o ac (c :: cs) st =
      apply o ac cs (st.extend [.Cluster (.CreateOrUpdateComponent c)]) := by
  simp [apply, CreateOrUpdateComponent, h]

/-- While the upserts of the components `pre` succeed, `apply` issues them and goes on. -/
theorem apply_append_ok (o : appfileOptions) (ac : ApplicationConfiguration)
    (pre rest : List Component) (st : State)
    (h : ∀ i (hi : i < pre.length),
      o.Kubecli.CreateOrUpdateComponent (clusterCalls st.trace ++ compCalls (pre.take i))
        pre[i] = none) :
    apply o ac (pre ++ rest) st =
      apply o ac rest (st.extend ((compCalls pre).map Event.Cluster)) := by
  induction pre generalizing st with
  | nil => simp [State.extend]
  | cons c pre ih =>
    have h0 := h 0 (by simp)
    simp only [List.take_zero, compCalls_nil, List.append_nil, List.getElem_cons_zero] at h0
    rw [List.cons_append, apply_cons_ok o ac c _ st h0, ih]
    · simp
    · intro i hi
      have hi2 := h (i + 1) (by simpa using hi)
      simpa using hi2

/-- The trace of `apply`: upserts of the first components, in order, then possibly the upsert
of the configuration resource, which comes only after all components. -/
theorem apply_shape (o : appfileOptions) (ac : ApplicationConfiguration)
    (comps : List Component) (st : State) :
    ∃ n tail, n ≤ comps.length ∧
      (tail = [] ∨ (n = comps.length ∧ tail = [ClusterCall.CreateOrUpdateAppConfig ac])) ∧
      (apply o ac comps st).2 =
        st.extend ((compCalls (comps.take n) ++ tail).map Event.Cluster) := by
  induction comps generalizing st with
  | nil =>
    exact ⟨0, [.CreateOrUpdateAppConfig ac], le_refl _, Or.inr ⟨rfl, rfl⟩, by simp [apply_nil]⟩
  | cons c cs ih =>
    cases hc : o.Kubecli.CreateOrUpdateComponent (clusterCalls st.trace) c with
    | some e =>
      exact ⟨1, [], by simp, Or.inl rfl, by simp [apply_cons_fail o ac c cs st e hc]⟩
    | none =>
      obtain ⟨n, tail, hn, ht, htr⟩ :=
        ih (st.extend [.Cluster (.CreateOrUpdateComponent c)])
      refine ⟨n + 1, tail, by simpa using hn, ?_, ?_⟩
      · rcases ht with ht | ⟨h1, h2⟩
        · exact Or.inl ht
        · exact Or.inr ⟨by simp [h1], h2⟩
      · rw [apply_cons_ok o ac c cs st hc, htr]
        simp

/-- The method `apply` leaves the files alone. -/
theorem apply_fs (o : appfileOptions) (ac : ApplicationConfiguration)
    (comps : List Component) (st : State) : (apply o ac comps st).2.fs = st.fs := by
  obtain ⟨n, tail, _, _, h⟩ := apply_shape o ac comps st
  rw [h]; rfl

/-- When every upsert of a component succeeds, `apply` issues all of them and then the upsert
of the configuration resource, whose result it returns. -/
theorem apply_all_ok (o : appfileOptions) (ac : ApplicationConfiguration)
    (comps : List Component) (st : State)
    (h : ∀ i (hi : i < comps.length),
      o.Kubecli.CreateOrUpdateComponent (clusterCalls st.trace ++ compCalls (comps.take i))
        comps[i] = none) :
    apply o ac comps st =
      (o.Kubecli.CreateOrUpdateAppConfig (clusterCalls st.trace ++ compCalls comps) ac,
        st.extend ((compCalls comps ++ [ClusterCall.CreateOrUpdateAppConfig ac]).map
          Event.Cluster)) := by
  have := apply_append_ok o ac comps [] st h
  rw [List.append_nil] at this
  rw [this, apply_nil]
  simp

/-- When the upserts of the first `n` components succeed and the next fails, `apply` stops
there and returns the error. -/
theorem apply_fail_at (o : appfileOptions) (ac : ApplicationConfiguration)
    (comps : List Component) (st : State) (n : Nat) (hn : n < comps.length) (e : Error)
    (hok : ∀ i (hi : i < n),
      o.Kubecli.CreateOrUpdateComponent (clusterCalls st.trace ++ compCalls (comps.take i))
        comps[i] = none)
    (hfail : o.Kubecli.CreateOrUpdateComponent (clusterCalls st.trace ++ compCalls (comps.take n))
        comps[n] = some e) :
    apply o ac comps st =
      (some e, st.extend ((compCalls (comps.take (n + 1))).map Event.Cluster)) := by
  have hsplit : comps = comps.take n ++ comps[n] :: comps.drop (n + 1) := by
    rw [← List.drop_eq_getElem_cons hn, List.take_append_drop]
  have hlen : (comps.take n).length = n := by
    simp [List.length_take, Nat.min_eq_left (Nat.le_of_lt hn)]
  have h1 := apply_append_ok o ac (comps.take n) (comps[n] :: comps.drop (n + 1)) st (by
    intro i hi
    have hi2 : i < n := by rw [hlen] at hi; exact hi
    have := hok i hi2
    simpa [List.take_take, Nat.min_eq_left (Nat.le_of_lt hi2), List.getElem_take] using this)
  rw [← hsplit] at h1
  rw [h1, apply_cons_fail _ _ _ _ _ e (by simpa using hfail)]
  have htk : comps.take (n + 1) = comps.take n ++ [comps[n]] := by
    rw [List.take_succ, List.getElem?_eq_getElem hn]; rfl
  rw [htk, compCalls_append, List.map_append, State.extend_extend]
  rfl

theorem apply_eq (o : appfileOptions) (ac : ApplicationConfiguration) (comps : List Component)
    (st : State) :
    apply o ac comps st =
      ((applyOutcome o.Kubecli ac comps (clusterCalls st.trace)).1,
        st.extend ((applyOutcome o.Kubecli ac comps (clusterCalls st.trace)).2.map
          Event.Cluster)) := by
  induction comps generalizing st with
  | nil => simp [apply_nil, applyOutcome]
  | cons c cs ih =>
    cases hc : o.Kubecli.CreateOrUpdateComponent (clusterCalls st.trace) c with
    | some e => simp [apply_cons_fail o ac c cs st e hc, applyOutcome, hc]
    | none => simp [apply_cons_ok o ac c cs st hc, applyOutcome, hc, ih]

/-- The outcome of `apply` depends on the client through its two upsert functions only. -/
theorem applyOutcome_congr (k1 k2 : Client) (ac : ApplicationConfiguration)
    (hC : k1.CreateOrUpdateComponent = k2.CreateOrUpdateComponent)
    (hA : k1.CreateOrUpdateAppConfig = k2.CreateOrUpdateAppConfig)
    (comps : List Component) (hist : List ClusterCall) :
    applyOutcome k1 ac comps hist = applyOutcome k2 ac comps hist := by
  induction comps generalizing hist with
  | nil => simp [applyOutcome, hA]
  | cons c cs ih => simp [applyOutcome, hC, ih]

theorem allUpsertsSucceed_nil (k : Client) (hist : List ClusterCall)
    (ac : ApplicationConfiguration) :
    AllUpsertsSucceed k hist ac [] ↔ k.CreateOrUpdateAppConfig hist ac = none := by
  simp [AllUpsertsSucceed]

theorem allUpsertsSucceed_cons (k : Client) (hist : List ClusterCall)
    (ac : ApplicationConfiguration) (c : Component) (cs : List Component) :
    AllUpsertsSucceed k hist ac (c :: cs) ↔
      k.CreateOrUpdateComponent hist c = none ∧
        AllUpsertsSucceed k (hist ++ [.CreateOrUpdateComponent c]) ac cs := by
  constructor
  · rintro ⟨h1, h2⟩
    refine ⟨by simpa using h1 0 (by simp), ?_, by simpa using h2⟩
    intro i hi
    simpa using h1 (i + 1) (by simpa using hi)
  · rintro ⟨h0, h1, h2⟩
    refine ⟨?_, by simpa using h2⟩
    intro i hi
    cases i with
    | zero => simpa using h0
    | succ i => simpa using h1 i (by simpa using hi)

/-- The method `apply` returns no error exactly when every upsert succeeds. -/
theorem applyOutcome_none_iff (k : Client) (ac : ApplicationConfiguration)
    (comps : List Component) (hist : List ClusterCall) :
    (applyOutcome k ac comps hist).1 = none ↔ AllUpsertsSucceed k hist ac comps := by
  induction comps generalizing hist with
  | nil => simp [applyOutcome, allUpsertsSucceed_nil]
  | cons c cs ih =>
    rw [allUpsertsSucceed_cons]
    cases hc : k.CreateOrUpdateComponent hist c with
    | some e => simp [applyOutcome, hc]
    | none => simp [applyOutcome, hc, ih]

/-- On success `apply` has sent the upserts of all components and then that of the
configuration resource. -/
theorem applyOutcome_calls_of_ok (k : Client) (ac : ApplicationConfiguration)
    (comps : List Component) (hist : List ClusterCall)
    (h : AllUpsertsSucceed k hist ac comps) :
    (applyOutcome k ac comps hist).2 = compCalls comps ++ [.CreateOrUpdateAppConfig ac] := by
  induction comps generalizing hist with
  | nil => simp [applyOutcome]
  | cons c cs ih =>
    rw [allUpsertsSucceed_cons] at h
    simp [applyOutcome, h.1, ih _ h.2]

/-- The requests of `apply` are upserts of the first components, in order, possibly followed
by the upsert of the configuration resource after all of them. -/
theorem applyOutcome_shape (k : Client) (ac : ApplicationConfiguration)
    (comps : List Component) (hist : List ClusterCall) :
    ∃ n tail, n ≤ comps.length ∧
      (tail = [] ∨ (n = comps.length ∧ tail = [ClusterCall.CreateOrUpdateAppConfig ac])) ∧
      (applyOutcome k ac comps hist).2 = compCalls (comps.take n) ++ tail := by
  induction comps generalizing hist with
  | nil => exact ⟨0, [.CreateOrUpdateAppConfig ac], le_refl _, Or.inr ⟨rfl, rfl⟩, by simp [applyOutcome]⟩
  | cons c cs ih =>
    cases hc : k.CreateOrUpdateComponent hist c with
    | some e => exact ⟨1, [], by simp, Or.inl rfl, by simp [applyOutcome, hc]⟩
    | none =>
      obtain ⟨n, tail, hn, ht, htr⟩ := ih (hist ++ [.CreateOrUpdateComponent c])
      refine ⟨n + 1, tail, by simpa using hn, ?_, by simp [applyOutcome, hc, htr]⟩
      rcases ht with ht | ⟨h1, h2⟩
      · exact Or.inl ht
      · exact Or.inr ⟨by simp [h1], h2⟩

/-! ## The method ApplyAppConfig -/

/-- The end of `ApplyAppConfig`: the summary is written when `apply` returned no error. -/
theorem ApplyAppConfig_finish {AppFile TM : Type} (d : Deps AppFile TM) (o : appfileOptions)
    (name : String) (r : Option Error) (s : State) :
    (match (r, s) with
      | (some err, st) => (some err, st)
      | (none, st) => (none, info d o st name)) =
      (r, s.extend (if r = none then infoEvents d o name else [])) := by
  cases r with
  | none => simp [info_eq]
  | some e => simp [State.extend]

/-- A lookup error that is not a not-found error aborts `ApplyAppConfig` right after the
lookup. -/
theorem ApplyAppConfig_abort {AppFile TM : Type} (d : Deps AppFile TM) (o : appfileOptions)
    (st : State) (ac : ApplicationConfiguration) (comps : List Component) (e : Error)
    (hget : (o.Kubecli.Get (clusterCalls st.trace) (lookupKey ac)).2 = some e)
    (hnf : d.IsNotFound e = false) :
    ApplyAppConfig d o st ac comps =
      (some e, st.extend [.Infof "\nChecking if app has been deployed...\n",
        .Cluster (.Get (lookupKey ac))]) := by
  simp [ApplyAppConfig, Get, Infof, lookupKey] at hget ⊢
  simp [hget, IsNotFound, hnf]

/-- After a lookup that finds the application or reports not-found, `ApplyAppConfig` writes
the line of its branch, runs `apply`, and writes the summary when `apply` returns no error. -/
theorem ApplyAppConfig_proceed {AppFile TM : Type} (d : Deps AppFile TM) (o : appfileOptions)
    (st : State) (ac : ApplicationConfiguration) (comps : List Component) (line : String)
    (hget : ((o.Kubecli.Get (clusterCalls st.trace) (lookupKey ac)).2 = none ∧
        line = existedLine) ∨
      (∃ e, (o.Kubecli.Get (clusterCalls st.trace) (lookupKey ac)).2 = some e ∧
        d.IsNotFound e = true ∧ line = notDeployedLine)) :
    ApplyAppConfig d o st ac comps =
      ((applyOutcome o.Kubecli ac comps (clusterCalls st.trace ++ [.Get (lookupKey ac)])).1,
        st.extend (lookupEvents ac line ++
          (applyOutcome o.Kubecli ac comps
            (clusterCalls st.trace ++ [.Get (lookupKey ac)])).2.map Event.Cluster ++
          (if (applyOutcome o.Kubecli ac comps
              (clusterCalls st.trace ++ [.Get (lookupKey ac)])).1 = none
            then infoEvents d o ac.Name else []))) := by
  have hst : ∀ l : String, apply o ac comps (st.extend (lookupEvents ac l)) =
      ((applyOutcome o.Kubecli ac comps (clusterCalls st.trace ++ [.Get (lookupKey ac)])).1,
        st.extend (lookupEvents ac l ++
          (applyOutcome o.Kubecli ac comps
            (clusterCalls st.trace ++ [.Get (lookupKey ac)])).2.map Event.Cluster)) := by
    intro l
    rw [apply_eq]
    simp [lookupEvents]
  rcases hget with ⟨hg, hl⟩ | ⟨e, hg, hnf, hl⟩
  · subst hl
    have h := hst existedLine
    simp only [ApplyAppConfig, Get, Infof, lookupKey, existedLine, lookupEvents,
      State.emit_eq_extend, State.extend_extend, State.extend_trace, clusterCalls_append,
      clusterCalls_cons_infof, clusterCalls_nil, List.append_nil, List.singleton_append,
      List.cons_append, List.nil_append] at hg h ⊢
    rw [hg]
    simp only [IsNotFound, Bool.false_eq_true, if_false, if_true]
    rw [h]
    rw [ApplyAppConfig_finish]
    simp
  · subst hl
    have h := hst notDeployedLine
    simp only [ApplyAppConfig, Get, Infof, lookupKey, notDeployedLine, lookupEvents,
      State.emit_eq_extend, State.extend_extend, State.extend_trace, clusterCalls_append,
      clusterCalls_cons_infof, clusterCalls_nil, List.append_nil, List.singleton_append,
      List.cons_append, List.nil_append] at hg h ⊢
    rw [hg]
    simp only [IsNotFound, hnf, if_true]
    rw [h]
    rw [ApplyAppConfig_finish]
    simp

/-! ## Create-before-reference -/

theorem compCalls_getElem (cs : List Component) (i : Nat) (hi : i < cs.length)
    (hi2 : i < (compCalls cs).length) :
    (compCalls cs)[i] = .CreateOrUpdateComponent cs[i] := by
  simp [compCalls]

theorem filter_isAppConfigUpsert_compCalls (cs : List Component) :
    (compCalls cs).filter ClusterCall.isAppConfigUpsert = [] := by
  induction cs with
  | nil => rfl
  | cons c cs ih => simp [ClusterCall.isAppConfigUpsert, ih]

/-- A run of component upserts, possibly closed by one upsert of the configuration resource,
satisfies create-before-reference. -/
theorem createBeforeReference_shape (ac : ApplicationConfiguration) (cs : List Component)
    (tail : List ClusterCall)
    (ht : tail = [] ∨ tail = [ClusterCall.CreateOrUpdateAppConfig ac]) :
    CreateBeforeReference (compCalls cs ++ tail) := by
  have hleft : ∀ j (hj : j < (compCalls cs ++ tail).length), j < cs.length →
      (compCalls cs ++ tail)[j].isAppConfigUpsert = false := by
    intro j hj hlt
    have hlt2 : j < (compCalls cs).length := by simpa using hlt
    rw [List.getElem_append_left hlt2, compCalls_getElem cs j hlt hlt2]
    rfl
  have hright : ∀ i (hi : i < (compCalls cs ++ tail).length), cs.length ≤ i →
      (compCalls cs ++ tail)[i].isComponentUpsert = false := by
    intro i hi hge
    have hge2 : (compCalls cs).length ≤ i := by simpa using hge
    rw [List.getElem_append_right hge2]
    rcases ht with ht | ht
    · subst ht; simp at hi; omega
    · subst ht
      simp at hi
      have : i - (compCalls cs).length = 0 := by simp; omega
      simp [this, ClusterCall.isComponentUpsert]
  have hlen : (compCalls cs ++ tail).length ≤ cs.length + 1 := by
    rcases ht with ht | ht <;> subst ht <;> simp
  refine ⟨?_, ?_, ?_⟩
  · intro i j hi hj hci haj
    by_contra hij
    have hji : j ≤ i := Nat.le_of_not_lt hij
    by_cases hjl : j < cs.length
    · rw [hleft j hj hjl] at haj; exact Bool.false_ne_true haj
    · have : cs.length ≤ i := by omega
      rw [hright i hi this] at hci; exact Bool.false_ne_true hci
  · intro j hj haj
    by_cases hjl : j < cs.length
    · rw [hleft j hj hjl] at haj; exact absurd haj Bool.false_ne_true
    · omega
  · rw [List.filter_append, filter_isAppConfigUpsert_compCalls]
    rcases ht with ht | ht <;> subst ht <;> simp [ClusterCall.isAppConfigUpsert]

theorem writes_map_cluster (cs : List ClusterCall) :
    writes (cs.map Event.Cluster) = cs.filter ClusterCall.isWrite := by
  simp [writes]

theorem applyOutcome_filter_isWrite (k : Client) (ac : ApplicationConfiguration)
    (comps : List Component) (hist : List ClusterCall) :
    (applyOutcome k ac comps hist).2.filter ClusterCall.isWrite =
      (applyOutcome k ac comps hist).2 := by
  obtain ⟨n, tail, _, ht, h⟩ := applyOutcome_shape k ac comps hist
  rw [h, List.filter_append, filter_isWrite_compCalls]
  rcases ht with ht | ⟨_, ht⟩ <;> subst ht <;> simp [ClusterCall.isWrite]

/-- The cluster writes of `apply` are the requests of `applyOutcome`. -/
theorem writes_apply (o : appfileOptions) (ac : ApplicationConfiguration)
    (comps : List Component) (st : State) :
    writes (emitted st (apply o ac comps st).2) =
      (applyOutcome o.Kubecli ac comps (clusterCalls st.trace)).2 := by
  rw [apply_eq]
  simp [writes_map_cluster, applyOutcome_filter_isWrite]

/-- The cluster writes of `ApplyAppConfig` are those of the `apply` it runs, if it runs it. -/
theorem writes_ApplyAppConfig {AppFile TM : Type} (d : Deps AppFile TM) (o : appfileOptions)
    (st : State) (ac : ApplicationConfiguration) (comps : List Component) :
    writes (emitted st (ApplyAppConfig d o st ac comps).2) = [] ∨
    writes (emitted st (ApplyAppConfig d o st ac comps).2) =
      (applyOutcome o.Kubecli ac comps (clusterCalls st.trace ++ [.Get (lookupKey ac)])).2 := by
  cases hg : (o.Kubecli.Get (clusterCalls st.trace) (lookupKey ac)).2 with
  | none =>
    right
    rw [ApplyAppConfig_proceed d o st ac comps existedLine (Or.inl ⟨hg, rfl⟩)]
    simp only [emitted_extend, writes, clusterCalls_append, clusterCalls_map_cluster,
      List.filter_append, applyOutcome_filter_isWrite]
    split <;> simp [lookupEvents, ClusterCall.isWrite]
  | some e =>
    cases hnf : d.IsNotFound e with
    | false =>
      left
      rw [ApplyAppConfig_abort d o st ac comps e hg hnf]
      simp [writes, ClusterCall.isWrite]
    | true =>
      right
      rw [ApplyAppConfig_proceed d o st ac comps notDeployedLine (Or.inr ⟨e, hg, hnf, rfl⟩)]
      simp only [emitted_extend, writes, clusterCalls_append, clusterCalls_map_cluster,
        List.filter_append, applyOutcome_filter_isWrite]
      split <;> simp [lookupEvents, ClusterCall.isWrite]

theorem createBeforeReference_applyOutcome (k : Client) (ac : ApplicationConfiguration)
    (comps : List Component) (hist : List ClusterCall) :
    CreateBeforeReference (applyOutcome k ac comps hist).2 := by
  obtain ⟨n, tail, _, ht, h⟩ := applyOutcome_shape k ac comps hist
  rw [h]
  apply createBeforeReference_shape ac
  rcases ht with ht | ⟨_, ht⟩
  · exact Or.inl ht
  · exact Or.inr ht

theorem createBeforeReference_nil : CreateBeforeReference [] := by
  refine ⟨?_, ?_, ?_⟩ <;> simp

/-- C1 (create-before-reference): for every configuration resource, every component list and
every behaviour of the cluster client, in the cluster writes issued by `apply`, and in those
issued by `ApplyAppConfig`, every component upsert comes strictly before the upsert of the
configuration resource, which, when it occurs, is the last write and occurs at most once. -/
theorem apply_create_before_reference {AppFile TM : Type} (d : Deps AppFile TM)
    (o : appfileOptions) (st : State) (ac : ApplicationConfiguration)
    (comps : List Component) :
    CreateBeforeReference (writes (emitted st (apply o ac comps st).2)) ∧
    CreateBeforeReference (writes (emitted st (ApplyAppConfig d o st ac comps).2)) := by
  constructor
  · rw [writes_apply]
    exact createBeforeReference_applyOutcome _ _ _ _
  · rcases writes_ApplyAppConfig d o st ac comps with h | h
    · rw [h]; exact createBeforeReference_nil
    · rw [h]; exact createBeforeReference_applyOutcome _ _ _ _

/-- C2 (partial-failure isolation): when the upserts of the components before index `n`
succeed and the upsert of the component at index `n` fails with `e`, `apply` returns exactly
`e` and the actions it adds to the trace are exactly the upserts of the components up to
index `n`, in bundle order: none for a later component, none for the configuration resource,
and nothing that undoes an earlier upsert. -/
theorem apply_partial_failure (o : appfileOptions) (ac : ApplicationConfiguration)
    (comps : List Component) (st : State) (n : Nat) (hn : n < comps.length) (e : Error)
    (hok : ∀ i (hi : i < n),
      o.Kubecli.CreateOrUpdateComponent (clusterCalls st.trace ++ compCalls (comps.take i))
        comps[i] = none)
    (hfail : o.Kubecli.CreateOrUpdateComponent (clusterCalls st.trace ++ compCalls (comps.take n))
        comps[n] = some e) :
    (apply o ac comps st).1 = some e ∧
    emitted st (apply o ac comps st).2 =
      ((comps.take (n + 1)).map ClusterCall.CreateOrUpdateComponent).map Event.Cluster ∧
    (apply o ac comps st).2.fs = st.fs := by
  rw [apply_fail_at o ac comps st n hn e hok hfail]
  simp [compCalls]

/-- C2 on a concrete run: `web` is accepted, `cache` is refused with `boom`. -/
theorem apply_partial_failure_witness :
    (apply { Kubecli := cacheFailsClient, Env := demoEnv } demoApp [webComp, cacheComp]
      emptyState).1 = some (.New "boom") ∧
    emitted emptyState (apply { Kubecli := cacheFailsClient, Env := demoEnv } demoApp
      [webComp, cacheComp] emptyState).2 =
      [.Cluster (.CreateOrUpdateComponent webComp),
       .Cluster (.CreateOrUpdateComponent cacheComp)] := by
  have h := apply_partial_failure { Kubecli := cacheFailsClient, Env := demoEnv } demoApp
    [webComp, cacheComp] emptyState 1 (by decide) (.New "boom")
    (by intro i hi; interval_cases i; rfl) (by rfl)
  exact ⟨h.1, h.2.1⟩

/-! ## The lookup of ApplyAppConfig -/

/-- The trace that `ApplyAppConfig` adds starts with the line of the check and the lookup. -/
theorem ApplyAppConfig_starts_with_lookup {AppFile TM : Type} (d : Deps AppFile TM)
    (o : appfileOptions) (st : State) (ac : ApplicationConfiguration)
    (comps : List Component) :
    ∃ rest, emitted st (ApplyAppConfig d o st ac comps).2 =
      .Infof "\nChecking if app has been deployed...\n" ::
      .Cluster (.Get { Namespace := ac.Namespace, Name := ac.Name }) :: rest := by
  cases hg : (o.Kubecli.Get (clusterCalls st.trace) (lookupKey ac)).2 with
  | none =>
    rw [ApplyAppConfig_proceed d o st ac comps existedLine (Or.inl ⟨hg, rfl⟩)]
    exact ⟨_, by simp [lookupEvents, lookupKey]; rfl⟩
  | some e =>
    cases hnf : d.IsNotFound e with
    | false =>
      rw [ApplyAppConfig_abort d o st ac comps e hg hnf]
      exact ⟨[], by simp [lookupKey]⟩
    | true =>
      rw [ApplyAppConfig_proceed d o st ac comps notDeployedLine (Or.inr ⟨e, hg, hnf, rfl⟩)]
      exact ⟨_, by simp [lookupEvents, lookupKey]; rfl⟩

/-- C3 (lookup errors): `ApplyAppConfig` first writes the line of the check and looks up the
key made of `ac.Namespace` and `ac.Name`. If the lookup returns an error that is not a
not-found error, `ApplyAppConfig` returns that error and does nothing more: no upsert, no
summary. If the lookup returns a not-found error, `ApplyAppConfig` does not fail on it: it
writes the line of that branch and applies the bundle, that is,
* it returns the result of `apply` and adds the summary when that result is no error;
* when every component upsert succeeds, it sends the upserts of all components, in order, and
  then the upsert of the configuration resource, whose result it returns, followed by the
  summary when that result is no error;
* when the upserts of the first `n` components succeed and the next fails with `e2`, it sends
  exactly these `n + 1` upserts and returns `e2`. -/
theorem ApplyAppConfig_lookup_error {AppFile TM : Type} (d : Deps AppFile TM)
    (o : appfileOptions) (st : State) (ac : ApplicationConfiguration)
    (comps : List Component) :
    (∃ rest, emitted st (ApplyAppConfig d o st ac comps).2 =
      .Infof "\nChecking if app has been deployed...\n" ::
      .Cluster (.Get { Namespace := ac.Namespace, Name := ac.Name }) :: rest) ∧
    (∀ e, (o.Kubecli.Get (clusterCalls st.trace)
          { Namespace := ac.Namespace, Name := ac.Name }).2 = some e →
        d.IsNotFound e = false →
      (ApplyAppConfig d o st ac comps).1 = some e ∧
      emitted st (ApplyAppConfig d o st ac comps).2 =
        [.Infof "\nChecking if app has been deployed...\n",
         .Cluster (.Get { Namespace := ac.Namespace, Name := ac.Name })] ∧
      writes (emitted st (ApplyAppConfig d o st ac comps).2) = []) ∧
    (∀ e, (o.Kubecli.Get (clusterCalls st.trace)
          { Namespace := ac.Namespace, Name := ac.Name }).2 = some e →
        d.IsNotFound e = true →
      ((ApplyAppConfig d o st ac comps).1 =
        (apply o ac comps (st.extend (lookupEvents ac notDeployedLine))).1 ∧
      (ApplyAppConfig d o st ac comps).2 =
        if (apply o ac comps (st.extend (lookupEvents ac notDeployedLine))).1 = none then
          (apply o ac comps (st.extend (lookupEvents ac notDeployedLine))).2.extend
            (infoEvents d o ac.Name)
        else (apply o ac comps (st.extend (lookupEvents ac notDeployedLine))).2) ∧
      ((∀ i (hi : i < comps.length),
          o.Kubecli.CreateOrUpdateComponent
            (clusterCalls st.trace ++
              .Get { Namespace := ac.Namespace, Name := ac.Name } ::
                (comps.take i).map ClusterCall.CreateOrUpdateComponent)
            comps[i] = none) →
        (ApplyAppConfig d o st ac comps).1 =
          o.Kubecli.CreateOrUpdateAppConfig
            (clusterCalls st.trace ++
              .Get { Namespace := ac.Namespace, Name := ac.Name } ::
                comps.map ClusterCall.CreateOrUpdateComponent) ac ∧
        emitted st (ApplyAppConfig d o st ac comps).2 =
          [.Infof "\nChecking if app has been deployed...\n",
           .Cluster (.Get { Namespace := ac.Namespace, Name := ac.Name }),
           .Infof "app has not been deployed, creating a new deployment...\n"] ++
          (comps.map ClusterCall.CreateOrUpdateComponent ++
            [ClusterCall.CreateOrUpdateAppConfig ac]).map Event.Cluster ++
          (if o.Kubecli.CreateOrUpdateAppConfig
              (clusterCalls st.trace ++
                .Get { Namespace := ac.Namespace, Name := ac.Name } ::
                  comps.map ClusterCall.CreateOrUpdateComponent) ac = none
            then infoEvents d o ac.Name else [])) ∧
      (∀ n (hn : n < comps.length) e2,
        (∀ i (hi : i < n),
          o.Kubecli.CreateOrUpdateComponent
            (clusterCalls st.trace ++
              .Get { Namespace := ac.Namespace, Name := ac.Name } ::
                (comps.take i).map ClusterCall.CreateOrUpdateComponent)
            comps[i] = none) →
        o.Kubecli.CreateOrUpdateComponent
            (clusterCalls st.trace ++
              .Get { Namespace := ac.Namespace, Name := ac.Name } ::
                (comps.take n).map ClusterCall.CreateOrUpdateComponent)
            comps[n] = some e2 →
        (ApplyAppConfig d o st ac comps).1 = some e2 ∧
        emitted st (ApplyAppConfig d o st ac comps).2 =
          [.Infof "\nChecking if app has been deployed...\n",
           .Cluster (.Get { Namespace := ac.Namespace, Name := ac.Name }),
           .Infof "app has not been deployed, creating a new deployment...\n"] ++
          ((comps.take (n + 1)).map ClusterCall.CreateOrUpdateComponent).map
            Event.Cluster)) := by
  refine ⟨ApplyAppConfig_starts_with_lookup d o st ac comps, ?_, ?_⟩
  · intro e hg hnf
    rw [ApplyAppConfig_abort d o st ac comps e hg hnf]
    simp [lookupKey, writes, ClusterCall.isWrite]
  · intro e hg hnf
    have hvia : (ApplyAppConfig d o st ac comps).1 =
          (apply o ac comps (st.extend (lookupEvents ac notDeployedLine))).1 ∧
        (ApplyAppConfig d o st ac comps).2 =
          if (apply o ac comps (st.extend (lookupEvents ac notDeployedLine))).1 = none then
            (apply o ac comps (st.extend (lookupEvents ac notDeployedLine))).2.extend
              (infoEvents d o ac.Name)
          else (apply o ac comps (st.extend (lookupEvents ac notDeployedLine))).2 := by
      rw [ApplyAppConfig_proceed d o st ac comps notDeployedLine (Or.inr ⟨e, hg, hnf, rfl⟩),
        apply_eq]
      simp only [State.extend_trace, clusterCalls_append]
      have hl : clusterCalls (lookupEvents ac notDeployedLine) = [.Get (lookupKey ac)] := by
        simp [lookupEvents]
      rw [hl]
      refine ⟨rfl, ?_⟩
      split <;> simp
    have hcalls : clusterCalls (st.extend (lookupEvents ac notDeployedLine)).trace =
        clusterCalls st.trace ++ [.Get { Namespace := ac.Namespace, Name := ac.Name }] := by
      simp [lookupEvents, lookupKey]
    refine ⟨hvia, ?_, ?_⟩
    · intro hok
      have hap := apply_all_ok o ac comps (st.extend (lookupEvents ac notDeployedLine)) (by
        intro i hi
        rw [hcalls]
        simpa [compCalls] using hok i hi)
      rw [hcalls] at hap
      rw [hvia.1, hvia.2, hap]
      simp only [List.append_assoc, List.singleton_append, compCalls]
      refine ⟨trivial, ?_⟩
      split <;> simp [lookupEvents, lookupKey, notDeployedLine]
    · intro n hn e2 hok hfail
      have hap := apply_fail_at o ac comps (st.extend (lookupEvents ac notDeployedLine)) n hn e2
        (by
          intro i hi
          rw [hcalls]
          simpa [compCalls] using hok i hi)
        (by
          rw [hcalls]
          simpa [compCalls] using hfail)
      rw [hvia.1, hvia.2, hap]
      simp [lookupEvents, lookupKey, notDeployedLine, compCalls]

/-- C3 on concrete runs: a lookup that times out sends nothing more; a lookup that finds
nothing is followed by the upserts of `web`, `cache` and `app` and by the summary. -/
theorem ApplyAppConfig_lookup_error_witness :
    ((ApplyAppConfig demoDeps { Kubecli := lookupClient (some (.New "timeout")), Env := demoEnv }
        emptyState demoApp [webComp, cacheComp]).1 = some (.New "timeout") ∧
      emitted emptyState (ApplyAppConfig demoDeps
        { Kubecli := lookupClient (some (.New "timeout")), Env := demoEnv }
        emptyState demoApp [webComp, cacheComp]).2 =
        [.Infof "\nChecking if app has been deployed...\n",
         .Cluster (.Get { Namespace := "demo", Name := "app" })]) ∧
    ((ApplyAppConfig demoDeps { Kubecli := lookupClient (some notFoundError), Env := demoEnv }
        emptyState demoApp [webComp, cacheComp]).1 = none ∧
      emitted emptyState (ApplyAppConfig demoDeps
        { Kubecli := lookupClient (some notFoundError), Env := demoEnv }
        emptyState demoApp [webComp, cacheComp]).2 =
        [.Infof "\nChecking if app has been deployed...\n",
         .Cluster (.Get { Namespace := "demo", Name := "app" }),
         .Infof "app has not been deployed, creating a new deployment...\n",
         .Cluster (.CreateOrUpdateComponent webComp),
         .Cluster (.CreateOrUpdateComponent cacheComp),
         .Cluster (.CreateOrUpdateAppConfig demoApp),
         .Infof "app has been deployed :rocket:rocket:rocket\n",
         .Infof "\tURL: http://example.com/\n",
         .Infof "\tPort forward: vela listen app <port>\n",
         .Infof "\tSSH: vela exec app\n",
         .Infof "\tLogging: vela logs app\n",
         .Infof "\tMetric: TODO\n"]) ∧
    ((ApplyAppConfig demoDeps { Kubecli := cacheFailsClient, Env := demoEnv }
        emptyState demoApp [webComp, cacheComp]).1 = some (.New "boom") ∧
      emitted emptyState (ApplyAppConfig demoDeps
        { Kubecli := cacheFailsClient, Env := demoEnv }
        emptyState demoApp [webComp, cacheComp]).2 =
        [.Infof "\nChecking if app has been deployed...\n",
         .Cluster (.Get { Namespace := "demo", Name := "app" }),
         .Infof "app has not been deployed, creating a new deployment...\n",
         .Cluster (.CreateOrUpdateComponent webComp),
         .Cluster (.CreateOrUpdateComponent cacheComp)]) := by
  have h1 := (ApplyAppConfig_lookup_error demoDeps
    { Kubecli := lookupClient (some (.New "timeout")), Env := demoEnv }
    emptyState demoApp [webComp, cacheComp]).2.1 (.New "timeout") rfl (by decide)
  have h2 := ((ApplyAppConfig_lookup_error demoDeps
    { Kubecli := lookupClient (some notFoundError), Env := demoEnv }
    emptyState demoApp [webComp, cacheComp]).2.2 notFoundError rfl (by decide)).2.1
    (fun _ _ => rfl)
  have h3 := ((ApplyAppConfig_lookup_error demoDeps
    { Kubecli := cacheFailsClient, Env := demoEnv }
    emptyState demoApp [webComp, cacheComp]).2.2 notFoundError rfl (by decide)).2.2
    1 (by decide) (.New "boom") (by intro i hi; interval_cases i; rfl) rfl
  exact ⟨⟨h1.1, h1.2.1⟩, ⟨h2.1.trans rfl, h2.2.trans rfl⟩, ⟨h3.1, h3.2.trans rfl⟩⟩

theorem mem_applyOutcome_appConfig (k : Client) (ac x : ApplicationConfiguration)
    (comps : List Component) (hist : List ClusterCall)
    (h : ClusterCall.CreateOrUpdateAppConfig x ∈ (applyOutcome k ac comps hist).2) : x = ac := by
  obtain ⟨n, tail, _, ht, hs⟩ := applyOutcome_shape k ac comps hist
  rw [hs, List.mem_append] at h
  rcases h with h | h
  · exfalso
    rw [compCalls, List.mem_map] at h
    obtain ⟨c, _, hc⟩ := h
    exact ClusterCall.noConfusion hc
  · rcases ht with ht | ⟨_, ht⟩
    · subst ht; simp at h
    · subst ht; simpa using h

/-- C7 (the existence check is informational only): take two runs of `ApplyAppConfig` on the
same bundle, from the same state, whose clients answer every upsert alike; in the first the
lookup finds the application (whatever object it reads), in the second it reports not-found.
Then both runs return the same result and issue the same upserts with the same arguments;
their traces differ in the one line that tells the branch; and every configuration resource
upserted by the first run is the `ac` of the bundle. -/
theorem ApplyAppConfig_lookup_informational {AppFile TM : Type} (d : Deps AppFile TM)
    (o1 o2 : appfileOptions) (st : State) (ac : ApplicationConfiguration)
    (comps : List Component) (e : Error)
    (hEnv : o1.Env = o2.Env)
    (hC : o1.Kubecli.CreateOrUpdateComponent = o2.Kubecli.CreateOrUpdateComponent)
    (hA : o1.Kubecli.CreateOrUpdateAppConfig = o2.Kubecli.CreateOrUpdateAppConfig)
    (hfound : (o1.Kubecli.Get (clusterCalls st.trace)
      { Namespace := ac.Namespace, Name := ac.Name }).2 = none)
    (hmiss : (o2.Kubecli.Get (clusterCalls st.trace)
      { Namespace := ac.Namespace, Name := ac.Name }).2 = some e)
    (hnf : d.IsNotFound e = true) :
    (ApplyAppConfig d o1 st ac comps).1 = (ApplyAppConfig d o2 st ac comps).1 ∧
    writes (emitted st (ApplyAppConfig d o1 st ac comps).2) =
      writes (emitted st (ApplyAppConfig d o2 st ac comps).2) ∧
    (∃ post,
      emitted st (ApplyAppConfig d o1 st ac comps).2 =
        [.Infof "\nChecking if app has been deployed...\n",
         .Cluster (.Get { Namespace := ac.Namespace, Name := ac.Name }),
         .Infof "app existed, updating existing deployment...\n"] ++ post ∧
      emitted st (ApplyAppConfig d o2 st ac comps).2 =
        [.Infof "\nChecking if app has been deployed...\n",
         .Cluster (.Get { Namespace := ac.Namespace, Name := ac.Name }),
         .Infof "app has not been deployed, creating a new deployment...\n"] ++ post) ∧
    (∀ x, ClusterCall.CreateOrUpdateAppConfig x ∈
        clusterCalls (emitted st (ApplyAppConfig d o1 st ac comps).2) → x = ac) ∧
    (ApplyAppConfig d o1 st ac comps).2.fs = (ApplyAppConfig d o2 st ac comps).2.fs := by
  have hcong := applyOutcome_congr o1.Kubecli o2.Kubecli ac hC hA comps
    (clusterCalls st.trace ++ [.Get (lookupKey ac)])
  have hinfo : infoEvents d o1 ac.Name = infoEvents d o2 ac.Name := by
    simp [infoEvents, hEnv]
  rw [ApplyAppConfig_proceed d o1 st ac comps existedLine (Or.inl ⟨hfound, rfl⟩),
    ApplyAppConfig_proceed d o2 st ac comps notDeployedLine (Or.inr ⟨e, hmiss, hnf, rfl⟩),
    hcong, hinfo]
  refine ⟨rfl, ?_, ?_, ?_, rfl⟩
  · simp [writes, lookupEvents, ClusterCall.isWrite]
  · exact ⟨_, by simp [lookupEvents, existedLine, lookupKey]; rfl,
      by simp [lookupEvents, notDeployedLine, lookupKey]⟩
  · intro x hx
    simp only [emitted_extend, clusterCalls_append, clusterCalls_map_cluster,
      List.mem_append] at hx
    rcases hx with (hx | hx) | hx
    · simp [lookupEvents] at hx
    · exact mem_applyOutcome_appConfig _ _ _ _ _ hx
    · split at hx <;> simp at hx

/-- C7 on concrete runs: the cluster holds `storedApp`, which refers to `old`, or holds
nothing; in both runs the upserts are `web`, `cache` and the new `demoApp`. -/
theorem ApplyAppConfig_lookup_informational_witness :
    writes (emitted emptyState (ApplyAppConfig demoDeps
      { Kubecli := lookupClient none, Env := demoEnv } emptyState demoApp
      [webComp, cacheComp]).2) =
    writes (emitted emptyState (ApplyAppConfig demoDeps
      { Kubecli := lookupClient (some notFoundError), Env := demoEnv } emptyState demoApp
      [webComp, cacheComp]).2) :=
  (ApplyAppConfig_lookup_informational demoDeps
    { Kubecli := lookupClient none, Env := demoEnv }
    { Kubecli := lookupClient (some notFoundError), Env := demoEnv }
    emptyState demoApp [webComp, cacheComp] notFoundError rfl rfl rfl rfl rfl
    (by decide)).2.1

@[simp] theorem logs_append (a b : List Event) : logs (a ++ b) = logs a ++ logs b := by
  simp [logs]

@[simp] theorem logs_map_cluster (cs : List ClusterCall) : logs (cs.map Event.Cluster) = [] := by
  induction cs with
  | nil => rfl
  | cons c cs ih => simp [logs]

theorem logs_infoEvents_length {AppFile TM : Type} (d : Deps AppFile TM) (o : appfileOptions)
    (name : String) : (logs (infoEvents d o name)).length = 6 := by
  simp [logs, infoEvents]

theorem logs_lookupEvents (ac : ApplicationConfiguration) (line : String) :
    logs (lookupEvents ac line) = ["\nChecking if app has been deployed...\n", line] := by
  simp [logs, lookupEvents]

/-- C8 (not-found branch and summary): when the lookup of `ApplyAppConfig` finds the
application or reports not-found,
* in the not-found case the trace added starts with the line of the check, the lookup and the
  line "app has not been deployed, creating a new deployment...", and every upsert comes after
  these three actions;
* the summary written by `info` for `ac.Name` ends the trace exactly when every component
  upsert and the upsert of the configuration resource succeed;
* in that case `ApplyAppConfig` returns no error and the trace added is the three actions of
  the lookup, the upserts of all components, the upsert of the configuration resource, and
  then the summary;
* otherwise `ApplyAppConfig` returns an error and writes no line besides the two of the
  lookup. -/
theorem ApplyAppConfig_summary {AppFile TM : Type} (d : Deps AppFile TM) (o : appfileOptions)
    (st : State) (ac : ApplicationConfiguration) (comps : List Component)
    (hlookup : (o.Kubecli.Get (clusterCalls st.trace) (lookupKey ac)).2 = none ∨
      ∃ e, (o.Kubecli.Get (clusterCalls st.trace) (lookupKey ac)).2 = some e ∧
        d.IsNotFound e = true) :
    ((∃ e, (o.Kubecli.Get (clusterCalls st.trace) (lookupKey ac)).2 = some e ∧
        d.IsNotFound e = true) →
      "has not been deployed".toList <:+:
        "app has not been deployed, creating a new deployment...\n".toList ∧
      ∃ rest, emitted st (ApplyAppConfig d o st ac comps).2 =
        [.Infof "\nChecking if app has been deployed...\n",
         .Cluster (.Get (lookupKey ac)),
         .Infof "app has not been deployed, creating a new deployment...\n"] ++ rest ∧
        writes rest = writes (emitted st (ApplyAppConfig d o st ac comps).2)) ∧
    (infoEvents d o ac.Name <:+ emitted st (ApplyAppConfig d o st ac comps).2 ↔
      AllUpsertsSucceed o.Kubecli (clusterCalls st.trace ++ [.Get (lookupKey ac)]) ac comps) ∧
    (AllUpsertsSucceed o.Kubecli (clusterCalls st.trace ++ [.Get (lookupKey ac)]) ac comps →
      (ApplyAppConfig d o st ac comps).1 = none ∧
      ∃ line, emitted st (ApplyAppConfig d o st ac comps).2 =
        lookupEvents ac line ++
        (compCalls comps ++ [ClusterCall.CreateOrUpdateAppConfig ac]).map Event.Cluster ++
        infoEvents d o ac.Name) ∧
    (¬ AllUpsertsSucceed o.Kubecli (clusterCalls st.trace ++ [.Get (lookupKey ac)]) ac comps →
      (ApplyAppConfig d o st ac comps).1 ≠ none ∧
      ∃ line, logs (emitted st (ApplyAppConfig d o st ac comps).2) =
        ["\nChecking if app has been deployed...\n", line]) := by
  have hline : ∃ line, ApplyAppConfig d o st ac comps =
      ((applyOutcome o.Kubecli ac comps (clusterCalls st.trace ++ [.Get (lookupKey ac)])).1,
        st.extend (lookupEvents ac line ++
          (applyOutcome o.Kubecli ac comps
            (clusterCalls st.trace ++ [.Get (lookupKey ac)])).2.map Event.Cluster ++
          (if (applyOutcome o.Kubecli ac comps
              (clusterCalls st.trace ++ [.Get (lookupKey ac)])).1 = none
            then infoEvents d o ac.Name else []))) := by
    rcases hlookup with hg | ⟨e, hg, hnf⟩
    · exact ⟨_, ApplyAppConfig_proceed d o st ac comps existedLine (Or.inl ⟨hg, rfl⟩)⟩
    · exact ⟨_, ApplyAppConfig_proceed d o st ac comps notDeployedLine
        (Or.inr ⟨e, hg, hnf, rfl⟩)⟩
  have hiff := applyOutcome_none_iff o.Kubecli ac comps
    (clusterCalls st.trace ++ [.Get (lookupKey ac)])
  refine ⟨?_, ?_, ?_, ?_⟩
  · rintro ⟨e, hg, hnf⟩
    refine ⟨by decide, ?_⟩
    rw [ApplyAppConfig_proceed d o st ac comps notDeployedLine (Or.inr ⟨e, hg, hnf, rfl⟩)]
    refine ⟨_, by simp [lookupEvents, notDeployedLine]; rfl, ?_⟩
    simp [writes, lookupEvents, ClusterCall.isWrite]
  · obtain ⟨line, hl⟩ := hline
    rw [hl, ← hiff]
    constructor
    · intro hsuf
      by_contra hne
      rw [if_neg hne] at hsuf
      have h1 := (hsuf.filterMap (fun
        | .Info s => some s
        | .Infof s => some s
        | _ => none)).length_le
      have h2 := logs_infoEvents_length d o ac.Name
      have h3 : logs (emitted st (st.extend (lookupEvents ac line ++
          (applyOutcome o.Kubecli ac comps
            (clusterCalls st.trace ++ [.Get (lookupKey ac)])).2.map Event.Cluster ++ []))) =
          ["\nChecking if app has been deployed...\n", line] := by
        simp [logs_lookupEvents]
      simp only [logs] at h2 h3
      rw [h2, h3] at h1
      simp at h1
    · intro hnone
      rw [if_pos hnone]
      simp only [emitted_extend]
      exact List.suffix_append _ _
  · intro hall
    obtain ⟨line, hl⟩ := hline
    rw [hl, applyOutcome_calls_of_ok _ _ _ _ hall, hiff.mpr hall]
    exact ⟨rfl, line, by simp⟩
  · intro hnot
    obtain ⟨line, hl⟩ := hline
    have hne : (applyOutcome o.Kubecli ac comps
        (clusterCalls st.trace ++ [.Get (lookupKey ac)])).1 ≠ none := fun h => hnot (hiff.mp h)
    rw [hl, if_neg hne]
    exact ⟨hne, line, by simp [logs_lookupEvents]⟩

/-- C8 on a concrete run: the lookup finds nothing and every upsert succeeds. -/
theorem ApplyAppConfig_summary_witness :
    (ApplyAppConfig demoDeps { Kubecli := lookupClient (some notFoundError), Env := demoEnv }
      emptyState demoApp [webComp, cacheComp]).1 = none ∧
    ∃ line, emitted emptyState (ApplyAppConfig demoDeps
      { Kubecli := lookupClient (some notFoundError), Env := demoEnv }
      emptyState demoApp [webComp, cacheComp]).2 =
      lookupEvents demoApp line ++
      (compCalls [webComp, cacheComp] ++
        [ClusterCall.CreateOrUpdateAppConfig demoApp]).map Event.Cluster ++
      infoEvents demoDeps { Kubecli := lookupClient (some notFoundError), Env := demoEnv }
        demoApp.Name :=
  (ApplyAppConfig_summary demoDeps
    { Kubecli := lookupClient (some notFoundError), Env := demoEnv }
    emptyState demoApp [webComp, cacheComp]
    (Or.inr ⟨notFoundError, rfl, by decide⟩)).2.2.1
    ⟨fun _ _ => rfl, rfl⟩

/-! ## The serializer -/

theorem componentDocs_append (a b : List String) :
    componentDocs (a ++ b) = componentDocs a ++ componentDocs b := by
  induction a with
  | nil => simp [componentDocs]
  | cons e es ih => simp [componentDocs, ih, String.append_assoc]

/-- The documents with a boundary between neighbours: the first document, then every other one
after a boundary line. -/
theorem joinDocs_cons (doc : String) (es : List String) :
    joinDocs (doc :: es.map (fun e => e ++ "\n")) = doc ++ componentDocs es := by
  induction es generalizing doc with
  | nil => simp [joinDocs, componentDocs]
  | cons e es ih =>
    show doc ++ "---\n" ++ joinDocs ((e ++ "\n") :: es.map (fun e => e ++ "\n")) = _
    rw [ih]
    simp [componentDocs, String.append_assoc]

/-- When every encoding succeeds, the loop appends the documents of the components, in order,
and tags every component. -/
theorem marshalComps_ok {AppFile TM : Type} (d : Deps AppFile TM) (ks : List Component)
    (cfg : String) (encK : Component → String)
    (hk : ∀ k ∈ ks, d.MarshalComponent (tagComponent k) = .ok (encK k)) :
    marshalComps d ks cfg =
      .ok (cfg ++ componentDocs (ks.map encK), ks.map tagComponent) := by
  induction ks generalizing cfg with
  | nil => simp [marshalComps, componentDocs]
  | cons k ks ih =>
    have h1 := hk k (List.mem_cons_self _ _)
    have h2 := ih (cfg ++ "---\n" ++ encK k ++ "\n") (fun x hx => hk x (List.mem_cons_of_mem _ hx))
    simp only [tagComponent] at h1
    simp only [marshalComps, h1, h2]
    simp [componentDocs, tagComponent, String.append_assoc]

/-- When the encodings of the components `pre` succeed and the next one, of `k`, fails with
`e`, the loop stops with the error that names `k`. -/
theorem marshalComps_fail {AppFile TM : Type} (d : Deps AppFile TM)
    (pre : List Component) (k : Component) (post : List Component) (cfg : String) (e : Error)
    (hpre : ∀ x ∈ pre, ∃ b, d.MarshalComponent (tagComponent x) = .ok b)
    (hk : d.MarshalComponent (tagComponent k) = .error e) :
    marshalComps d (pre ++ k :: post) cfg =
      .error (Errorf ("marshal service (" ++ k.Name ++ ") failed: ") e) := by
  induction pre generalizing cfg with
  | nil =>
    simp only [tagComponent] at hk
    simp [marshalComps, hk]
  | cons x pre ih =>
    obtain ⟨b, hb⟩ := hpre x (List.mem_cons_self _ _)
    have h2 := ih (cfg ++ "---\n" ++ b ++ "\n") (fun y hy => hpre y (List.mem_cons_of_mem _ hy))
    simp only [tagComponent] at hb
    simp only [List.cons_append, marshalComps, hb, List.append_eq, h2]

/-- The components that come out of the loop are the tagged components, and each of them has
an encoding. -/
theorem marshalComps_inv {AppFile TM : Type} (d : Deps AppFile TM) (ks : List Component)
    (cfg out : String) (ks2 : List Component)
    (h : marshalComps d ks cfg = .ok (out, ks2)) :
    ks2 = ks.map tagComponent ∧
    ∃ encs : List String, List.Forall₂ (fun k e => d.MarshalComponent k = .ok e) ks2 encs ∧
      out = cfg ++ componentDocs encs := by
  induction ks generalizing cfg out ks2 with
  | nil =>
    simp only [marshalComps, Except.ok.injEq, Prod.mk.injEq] at h
    obtain ⟨h1, h2⟩ := h
    subst h1 h2
    exact ⟨rfl, [], List.Forall₂.nil, by simp [componentDocs]⟩
  | cons k ks ih =>
    simp only [marshalComps] at h
    cases hb : d.MarshalComponent { k with TypeMeta := componentTypeMeta } with
    | error e => simp [hb] at h
    | ok b =>
      simp only [hb] at h
      cases hr : marshalComps d ks (cfg ++ "---\n" ++ b ++ "\n") with
      | error e => simp [hr] at h
      | ok r =>
        obtain ⟨out2, ks3⟩ := r
        simp only [hr, Except.ok.injEq, Prod.mk.injEq] at h
        obtain ⟨h1, h2⟩ := h
        obtain ⟨hks, encs, hf, hout⟩ := ih _ _ _ hr
        subst h1 h2
        refine ⟨by simp [hks, tagComponent], b :: encs, List.Forall₂.cons hb hf, ?_⟩
        rw [hout]
        simp [componentDocs, String.append_assoc]

/-- When every encoding succeeds, `serialize` yields the layout and the tagged bundle. -/
theorem serialize_ok {AppFile TM : Type} (d : Deps AppFile TM) (c : ApplicationConfiguration)
    (ks : List Component) (encC : String) (encK : Component → String)
    (hc : d.MarshalAppConfig (tagAppConfig c) = .ok encC)
    (hk : ∀ k ∈ ks, d.MarshalComponent (tagComponent k) = .ok (encK k)) :
    serialize d c ks =
      .ok (encC ++ "\n" ++ componentDocs (ks.map encK), tagAppConfig c, ks.map tagComponent) := by
  simp only [tagAppConfig] at hc
  simp only [serialize, hc, marshalComps_ok d ks _ encK hk]
  simp [tagAppConfig]

/-- What `serialize` yields when it succeeds: the tagged bundle, and the encoding of the
tagged configuration resource followed by the documents of the tagged components. -/
theorem serialize_inv {AppFile TM : Type} (d : Deps AppFile TM) (c : ApplicationConfiguration)
    (ks : List Component) (cfg : String) (c2 : ApplicationConfiguration)
    (ks2 : List Component) (h : serialize d c ks = .ok (cfg, c2, ks2)) :
    c2 = tagAppConfig c ∧ ks2 = ks.map tagComponent ∧
    ∃ encC encs, d.MarshalAppConfig c2 = .ok encC ∧
      List.Forall₂ (fun k e => d.MarshalComponent k = .ok e) ks2 encs ∧
      cfg = encC ++ "\n" ++ componentDocs encs := by
  simp only [serialize] at h
  cases hb : d.MarshalAppConfig { c with TypeMeta := applicationConfigurationTypeMeta } with
  | error e => simp [hb] at h
  | ok b =>
    simp only [hb] at h
    cases hr : marshalComps d ks (b ++ "\n") with
    | error e => simp [hr] at h
    | ok r =>
      obtain ⟨out2, ks3⟩ := r
      simp [hr] at h
      obtain ⟨h1, h2, h3⟩ := h
      obtain ⟨hks, encs, hf, hout⟩ := marshalComps_inv d ks _ _ _ hr
      subst h1 h2 h3
      exact ⟨rfl, hks, b, encs, hb, hf, hout⟩

/-! ## The method Run, step by step -/

theorem Run_load_fail {AppFile TM : Type} (d : Deps AppFile TM) (o : appfileOptions)
    (st : State) (filePath : String) (err : Error)
    (hl : loadResult d filePath = .error err) :
    Run d o st filePath =
      (some err, st.extend [.Info "Parsing vela.yaml ...", loadEvent filePath]) := by
  by_cases hp : filePath = "" <;>
    simp [loadResult, hp] at hl <;>
    simp [Run, Info, hp, hl, loadEvent]

theorem Run_templates_fail {AppFile TM : Type} (d : Deps AppFile TM) (o : appfileOptions)
    (st : State) (filePath : String) (app : AppFile) (err : Error)
    (hl : loadResult d filePath = .ok app) (ht : d.templateLoad = .error err) :
    Run d o st filePath =
      (some err, st.extend [.Info "Parsing vela.yaml ...", loadEvent filePath,
        .Info "Loading templates ...", .TemplateLoad]) := by
  by_cases hp : filePath = "" <;>
    simp [loadResult, hp] at hl <;>
    simp [Run, Info, hp, hl, ht, loadEvent]

theorem Run_build_fail {AppFile TM : Type} (d : Deps AppFile TM) (o : appfileOptions)
    (st : State) (filePath : String) (app : AppFile) (tm : TM) (diag : List String)
    (err : Error)
    (hl : loadResult d filePath = .ok app) (ht : d.templateLoad = .ok tm)
    (hb : d.BuildOAM app o.Env.Namespace tm false = (diag, .error err)) :
    Run d o st filePath = (some err, st.extend (buildEvents filePath o.Env.Namespace diag)) := by
  by_cases hp : filePath = "" <;>
    simp [loadResult, hp] at hl <;>
    simp [Run, Info, hp, hl, ht, hb, loadEvent, buildEvents]

theorem Run_serialize_fail {AppFile TM : Type} (d : Deps AppFile TM) (o : appfileOptions)
    (st : State) (filePath : String) (app : AppFile) (tm : TM) (diag : List String)
    (ks : List Component) (c : ApplicationConfiguration) (err : Error)
    (hl : loadResult d filePath = .ok app) (ht : d.templateLoad = .ok tm)
    (hb : d.BuildOAM app o.Env.Namespace tm false = (diag, .ok (ks, c)))
    (hs : serialize d c ks = .error err) :
    Run d o st filePath = (some err, st.extend (buildEvents filePath o.Env.Namespace diag)) := by
  by_cases hp : filePath = "" <;>
    simp [loadResult, hp] at hl <;>
    simp [Run, Info, hp, hl, ht, hb, hs, loadEvent, buildEvents]

theorem Run_mkdir_fail {AppFile TM : Type} (d : Deps AppFile TM) (o : appfileOptions)
    (st : State) (filePath : String) (app : AppFile) (tm : TM) (diag : List String)
    (ks : List Component) (c : ApplicationConfiguration) (cfg : String)
    (c2 : ApplicationConfiguration) (ks2 : List Component) (err : Error)
    (hl : loadResult d filePath = .ok app) (ht : d.templateLoad = .ok tm)
    (hb : d.BuildOAM app o.Env.Namespace tm false = (diag, .ok (ks, c)))
    (hs : serialize d c ks = .ok (cfg, c2, ks2))
    (hm : d.MkdirAll (d.Dir ".vela/deploy.yaml") 0o700 = some err) :
    Run d o st filePath =
      (some err, st.extend (buildEvents filePath o.Env.Namespace diag ++
        [.Infof "writing deploy config to (.vela/deploy.yaml)\n",
         .MkdirAll (d.Dir ".vela/deploy.yaml") 0o700])) := by
  by_cases hp : filePath = "" <;>
    simp [loadResult, hp] at hl <;>
    simp [Run, Info, Infof, MkdirAll, hp, hl, ht, hb, hs, hm, loadEvent, buildEvents]

theorem Run_write_fail {AppFile TM : Type} (d : Deps AppFile TM) (o : appfileOptions)
    (st : State) (filePath : String) (app : AppFile) (tm : TM) (diag : List String)
    (ks : List Component) (c : ApplicationConfiguration) (cfg : String)
    (c2 : ApplicationConfiguration) (ks2 : List Component) (err : Error)
    (left : Option String)
    (hl : loadResult d filePath = .ok app) (ht : d.templateLoad = .ok tm)
    (hb : d.BuildOAM app o.Env.Namespace tm false = (diag, .ok (ks, c)))
    (hs : serialize d c ks = .ok (cfg, c2, ks2))
    (hm : d.MkdirAll (d.Dir ".vela/deploy.yaml") 0o700 = none)
    (hw : d.WriteFile ".vela/deploy.yaml" cfg 0o600 = .failed err left) :
    Run d o st filePath =
      (some err,
        { trace := st.trace ++ (buildEvents filePath o.Env.Namespace diag ++
            [.Infof "writing deploy config to (.vela/deploy.yaml)\n",
             .MkdirAll (d.Dir ".vela/deploy.yaml") 0o700,
             .WriteFile ".vela/deploy.yaml" cfg 0o600])
          fs := Function.update st.fs ".vela/deploy.yaml" left }) := by
  by_cases hp : filePath = "" <;>
    simp [loadResult, hp] at hl <;>
    simp [Run, Info, Infof, MkdirAll, WriteFile, hp, hl, ht, hb, hs, hm, hw, loadEvent,
      buildEvents, State.extend]

theorem Run_write_ok {AppFile TM : Type} (d : Deps AppFile TM) (o : appfileOptions)
    (st : State) (filePath : String) (app : AppFile) (tm : TM) (diag : List String)
    (ks : List Component) (c : ApplicationConfiguration) (cfg : String)
    (c2 : ApplicationConfiguration) (ks2 : List Component)
    (hl : loadResult d filePath = .ok app) (ht : d.templateLoad = .ok tm)
    (hb : d.BuildOAM app o.Env.Namespace tm false = (diag, .ok (ks, c)))
    (hs : serialize d c ks = .ok (cfg, c2, ks2))
    (hm : d.MkdirAll (d.Dir ".vela/deploy.yaml") 0o700 = none)
    (hw : d.WriteFile ".vela/deploy.yaml" cfg 0o600 = .ok) :
    Run d o st filePath =
      ApplyAppConfig d o
        { trace := st.trace ++ (buildEvents filePath o.Env.Namespace diag ++ writeEvents d cfg)
          fs := Function.update st.fs ".vela/deploy.yaml" (some cfg) } c2 ks2 := by
  by_cases hp : filePath = "" <;>
    simp [loadResult, hp] at hl <;>
    simp [Run, Info, Infof, MkdirAll, WriteFile, hp, hl, ht, hb, hs, hm, hw, loadEvent,
      buildEvents, writeEvents, State.extend]

/-- The method `ApplyAppConfig` adds to the trace, touches no file, and what it adds starts
with a line and goes on with lines and cluster requests only. -/
theorem ApplyAppConfig_extends {AppFile TM : Type} (d : Deps AppFile TM) (o : appfileOptions)
    (st : State) (ac : ApplicationConfiguration) (comps : List Component) :
    ∃ evs, (ApplyAppConfig d o st ac comps).2 = st.extend evs ∧
      (∀ ev ∈ evs, ev.isFileOp = false) := by
  have hmap : ∀ cs : List ClusterCall, ∀ ev ∈ cs.map Event.Cluster, ev.isFileOp = false := by
    intro cs ev hev
    rw [List.mem_map] at hev
    obtain ⟨c, _, rfl⟩ := hev
    rfl
  have hgo : ∀ line, ∀ ev ∈ lookupEvents ac line ++
      (applyOutcome o.Kubecli ac comps
        (clusterCalls st.trace ++ [.Get (lookupKey ac)])).2.map Event.Cluster ++
      (if (applyOutcome o.Kubecli ac comps
          (clusterCalls st.trace ++ [.Get (lookupKey ac)])).1 = none
        then infoEvents d o ac.Name else []), ev.isFileOp = false := by
    intro line ev hev
    rw [List.mem_append, List.mem_append] at hev
    rcases hev with (hev | hev) | hev
    · simp [lookupEvents] at hev
      rcases hev with h | h | h <;> subst h <;> rfl
    · exact hmap _ ev hev
    · split at hev
      · simp [infoEvents] at hev
        rcases hev with h | h | h | h | h | h <;> subst h <;> rfl
      · simp at hev
  cases hg : (o.Kubecli.Get (clusterCalls st.trace) (lookupKey ac)).2 with
  | none =>
    rw [ApplyAppConfig_proceed d o st ac comps existedLine (Or.inl ⟨hg, rfl⟩)]
    exact ⟨_, rfl, hgo _⟩
  | some e =>
    cases hnf : d.IsNotFound e with
    | false =>
      rw [ApplyAppConfig_abort d o st ac comps e hg hnf]
      refine ⟨_, rfl, ?_⟩
      intro ev hev
      simp at hev
      rcases hev with h | h <;> subst h <;> rfl
    | true =>
      rw [ApplyAppConfig_proceed d o st ac comps notDeployedLine (Or.inr ⟨e, hg, hnf, rfl⟩)]
      exact ⟨_, rfl, hgo _⟩

@[simp] theorem emitted_mk (st : State) (evs : List Event) (f : String → Option String) :
    emitted st { trace := st.trace ++ evs, fs := f } = evs := by
  simp [emitted]

@[simp] theorem clusterCalls_cons_loadEvent (filePath : String) (tr : List Event) :
    clusterCalls (loadEvent filePath :: tr) = clusterCalls tr := by
  by_cases hp : filePath = "" <;> simp [loadEvent, clusterCalls, hp]

@[simp] theorem clusterCalls_cons_info (s : String) (tr : List Event) :
    clusterCalls (.Info s :: tr) = clusterCalls tr := by
  simp [clusterCalls]

@[simp] theorem clusterCalls_cons_templateLoad (tr : List Event) :
    clusterCalls (.TemplateLoad :: tr) = clusterCalls tr := by
  simp [clusterCalls]

@[simp] theorem clusterCalls_cons_mkdirAll (path : String) (perm : Nat) (tr : List Event) :
    clusterCalls (.MkdirAll path perm :: tr) = clusterCalls tr := by
  simp [clusterCalls]

@[simp] theorem clusterCalls_cons_writeFile (f dta : String) (perm : Nat) (tr : List Event) :
    clusterCalls (.WriteFile f dta perm :: tr) = clusterCalls tr := by
  simp [clusterCalls]

@[simp] theorem clusterCalls_buildEvents (filePath ns : String) (diag : List String) :
    clusterCalls (buildEvents filePath ns diag) = [] := by
  by_cases hp : filePath = "" <;> simp [buildEvents, loadEvent, clusterCalls, hp]

@[simp] theorem clusterCalls_writeEvents {AppFile TM : Type} (d : Deps AppFile TM)
    (cfg : String) : clusterCalls (writeEvents d cfg) = [] := by
  simp [writeEvents, clusterCalls]

theorem isFileOp_buildEvents (filePath ns : String) (diag : List String) :
    ∀ ev ∈ buildEvents filePath ns diag, ev.isFileOp = false := by
  intro ev hev
  by_cases hp : filePath = "" <;> simp [buildEvents, loadEvent, hp] at hev <;>
    rcases hev with h | h | h | h | h <;> subst h <;> rfl

/-- The state in which `Run` calls `ApplyAppConfig`, after it wrote `cfg` to the deploy
file. -/
theorem Run_after_write {AppFile TM : Type} (d : Deps AppFile TM) (o : appfileOptions)
    (st : State) (filePath : String) (app : AppFile) (tm : TM) (diag : List String)
    (ks : List Component) (c : ApplicationConfiguration) (cfg : String)
    (c2 : ApplicationConfiguration) (ks2 : List Component)
    (hl : loadResult d filePath = .ok app) (ht : d.templateLoad = .ok tm)
    (hb : d.BuildOAM app o.Env.Namespace tm false = (diag, .ok (ks, c)))
    (hs : serialize d c ks = .ok (cfg, c2, ks2))
    (hm : d.MkdirAll (d.Dir ".vela/deploy.yaml") 0o700 = none)
    (hw : d.WriteFile ".vela/deploy.yaml" cfg 0o600 = .ok) :
    ∃ evs, (∀ ev ∈ evs, ev.isFileOp = false) ∧
      evs = emitted
        { trace := st.trace ++ (buildEvents filePath o.Env.Namespace diag ++ writeEvents d cfg)
          fs := Function.update st.fs ".vela/deploy.yaml" (some cfg) }
        (ApplyAppConfig d o
          { trace := st.trace ++ (buildEvents filePath o.Env.Namespace diag ++ writeEvents d cfg)
            fs := Function.update st.fs ".vela/deploy.yaml" (some cfg) } c2 ks2).2 ∧
      emitted st (Run d o st filePath).2 =
        buildEvents filePath o.Env.Namespace diag ++ writeEvents d cfg ++ evs ∧
      (Run d o st filePath).2.fs = Function.update st.fs ".vela/deploy.yaml" (some cfg) := by
  obtain ⟨evs, hevs, hfile⟩ := ApplyAppConfig_extends d o
    { trace := st.trace ++ (buildEvents filePath o.Env.Namespace diag ++ writeEvents d cfg)
      fs := Function.update st.fs ".vela/deploy.yaml" (some cfg) } c2 ks2
  refine ⟨evs, hfile, ?_, ?_, ?_⟩
  · rw [hevs]; simp
  · rw [Run_write_ok d o st filePath app tm diag ks c cfg c2 ks2 hl ht hb hs hm hw, hevs]
    simp [emitted, State.extend]
  · rw [Run_write_ok d o st filePath app tm diag ks c cfg c2 ks2 hl ht hb hs hm hw, hevs]
    rfl

/-! ## The serialized bundle -/

/-- C4 (serialization layout): when `Run` has loaded the appfile and the templates, the
builder has yielded the configuration resource `c` and the components `ks`, every encoding
succeeds (`encC` for the tagged `c`, `encK k` for the tagged `k`) and the directory is there,
then
* the serializer yields `encC`, a newline, and for each component in list order a boundary
  line, its encoding and a newline;
* `Run` calls `WriteFile` with exactly these bytes, for `.vela/deploy.yaml`, and with nothing
  else;
* when that write succeeds the file holds exactly these bytes;
* these bytes are the documents `encC ++ "\n"`, `encK k ++ "\n"` in list order, one more than
  there are components, with one boundary line between every two neighbours. -/
theorem Run_serialization_layout {AppFile TM : Type} (d : Deps AppFile TM)
    (o : appfileOptions) (st : State) (filePath : String) (app : AppFile) (tm : TM)
    (diag : List String) (ks : List Component) (c : ApplicationConfiguration)
    (encC : String) (encK : Component → String)
    (hl : loadResult d filePath = .ok app) (ht : d.templateLoad = .ok tm)
    (hb : d.BuildOAM app o.Env.Namespace tm false = (diag, .ok (ks, c)))
    (hc : d.MarshalAppConfig (tagAppConfig c) = .ok encC)
    (hk : ∀ k ∈ ks, d.MarshalComponent (tagComponent k) = .ok (encK k))
    (hm : d.MkdirAll (d.Dir ".vela/deploy.yaml") 0o700 = none) :
    serialize d c ks =
      .ok (encC ++ "\n" ++ componentDocs (ks.map encK), tagAppConfig c, ks.map tagComponent) ∧
    (∀ filename data perm,
      Event.WriteFile filename data perm ∈ emitted st (Run d o st filePath).2 ↔
        (filename = ".vela/deploy.yaml" ∧
          data = encC ++ "\n" ++ componentDocs (ks.map encK) ∧ perm = 0o600)) ∧
    (d.WriteFile ".vela/deploy.yaml" (encC ++ "\n" ++ componentDocs (ks.map encK)) 0o600 = .ok →
      (Run d o st filePath).2.fs ".vela/deploy.yaml" =
        some (encC ++ "\n" ++ componentDocs (ks.map encK))) ∧
    encC ++ "\n" ++ componentDocs (ks.map encK) =
      joinDocs ((encC ++ "\n") :: (ks.map encK).map (fun e => e ++ "\n")) ∧
    ((encC ++ "\n") :: (ks.map encK).map (fun e => e ++ "\n")).length = ks.length + 1 := by
  have hs := serialize_ok d c ks encC encK hc hk
  have hnb : ∀ filename data perm,
      Event.WriteFile filename data perm ∉ buildEvents filePath o.Env.Namespace diag := by
    intro f dta p hmem
    have := isFileOp_buildEvents filePath o.Env.Namespace diag _ hmem
    simp [Event.isFileOp] at this
  refine ⟨hs, ?_, ?_, (joinDocs_cons _ _).symm, by simp⟩
  · intro filename data perm
    cases hw : d.WriteFile ".vela/deploy.yaml" (encC ++ "\n" ++ componentDocs (ks.map encK))
        0o600 with
    | ok =>
      obtain ⟨evs, hfile, _, hem, _⟩ := Run_after_write d o st filePath app tm diag ks c _ _ _
        hl ht hb hs hm hw
      rw [hem]
      constructor
      · intro hmem
        rw [List.mem_append, List.mem_append] at hmem
        rcases hmem with (hmem | hmem) | hmem
        · exact absurd hmem (hnb _ _ _)
        · simpa [writeEvents] using hmem
        · have := hfile _ hmem
          simp [Event.isFileOp] at this
      · rintro ⟨rfl, rfl, rfl⟩
        simp [writeEvents]
    | failed err left =>
      rw [Run_write_fail d o st filePath app tm diag ks c _ _ _ err left hl ht hb hs hm hw]
      simp only [emitted_mk]
      constructor
      · intro hmem
        rw [List.mem_append] at hmem
        rcases hmem with hmem | hmem
        · exact absurd hmem (hnb _ _ _)
        · simpa using hmem
      · rintro ⟨rfl, rfl, rfl⟩
        simp
  · intro hw
    obtain ⟨evs, _, _, _, hfs⟩ := Run_after_write d o st filePath app tm diag ks c _ _ _
      hl ht hb hs hm hw
    rw [hfs]
    simp

/-- C4 on the bundle of the spec: the components `web` and `cache` and the configuration
resource `app` give three documents, in the order `app`, `web`, `cache`. -/
theorem Run_serialization_layout_witness :
    (Run demoDeps { Kubecli := lookupClient (some notFoundError), Env := demoEnv } emptyState
      "").2.fs ".vela/deploy.yaml" =
      some ("kind: ApplicationConfiguration\nname: app\n" ++
        "---\nkind: Component\nname: web\n" ++
        "---\nkind: Component\nname: cache\n") :=
  ((Run_serialization_layout demoDeps
    { Kubecli := lookupClient (some notFoundError), Env := demoEnv } emptyState "" () () []
    [webComp, cacheComp] demoApp "kind: ApplicationConfiguration\nname: app"
    (fun k => "kind: Component\nname: " ++ k.Name) rfl rfl rfl rfl
    (by intro k hk; simp at hk; rcases hk with h | h <;> subst h <;> rfl) rfl).2.2.1
    rfl).trans rfl

/-! ## Encoding failures -/

/-- C5, counterexample: the encoding of the configuration resource `frontend` fails with
`boom`; `Run` returns the message "marshal AppConfig failed: boom", in which the name
`frontend` does not occur. -/
theorem Run_appConfig_encoding_error_unnamed :
    (Run appConfigEncoderFails { Kubecli := lookupClient none, Env := demoEnv } emptyState
      "").1 = some (.wrapError "marshal AppConfig failed: boom" (.New "boom")) ∧
    ¬ (frontendApp.Name.toList <:+:
      (Error.wrapError "marshal AppConfig failed: boom" (.New "boom")).ErrorString.toList) := by
  refine ⟨?_, by decide⟩
  rw [Run_serialize_fail appConfigEncoderFails { Kubecli := lookupClient none, Env := demoEnv }
    emptyState "" () () [] [webComp, cacheComp] frontendApp
    (.wrapError "marshal AppConfig failed: boom" (.New "boom")) rfl rfl rfl rfl]

/-- C5, amended (encoding failure): when `Run` has loaded the appfile and the templates and
the builder has yielded `c` and `ks`,
* if the encoding of the configuration resource fails with `e`, `Run` returns the error that
  wraps `e` with the message "marshal AppConfig failed: " followed by the message of `e`;
* if the encoding of the configuration resource succeeds, the encodings of the components
  `pre` succeed and the encoding of the next component `k` fails with `e`, `Run` returns the
  error that wraps `e` with the message "marshal service (NAME) failed: " followed by the
  message of `e`, where NAME is the name of `k`, so the name of `k` occurs in the message;
* in both cases the trace added stops at the build step: it has no file system action and no
  cluster request, and the files are as they were. -/
theorem Run_encoding_failure {AppFile TM : Type} (d : Deps AppFile TM)
    (o : appfileOptions) (st : State) (filePath : String) (app : AppFile) (tm : TM)
    (diag : List String) (ks : List Component) (c : ApplicationConfiguration)
    (hl : loadResult d filePath = .ok app) (ht : d.templateLoad = .ok tm)
    (hb : d.BuildOAM app o.Env.Namespace tm false = (diag, .ok (ks, c))) :
    (∀ e, d.MarshalAppConfig (tagAppConfig c) = .error e →
      Run d o st filePath =
        (some (.wrapError ("marshal AppConfig failed: " ++ e.ErrorString) e),
          st.extend (buildEvents filePath o.Env.Namespace diag))) ∧
    (∀ encC pre k post e, d.MarshalAppConfig (tagAppConfig c) = .ok encC →
      ks = pre ++ k :: post →
      (∀ x ∈ pre, ∃ b, d.MarshalComponent (tagComponent x) = .ok b) →
      d.MarshalComponent (tagComponent k) = .error e →
      Run d o st filePath =
        (some (.wrapError ("marshal service (" ++ k.Name ++ ") failed: " ++ e.ErrorString) e),
          st.extend (buildEvents filePath o.Env.Namespace diag)) ∧
      k.Name.toList <:+:
        ("marshal service (" ++ k.Name ++ ") failed: " ++ e.ErrorString).toList) ∧
    (∀ ev ∈ buildEvents filePath o.Env.Namespace diag, ev.isFileOp = false) ∧
    clusterCalls (buildEvents filePath o.Env.Namespace diag) = [] ∧
    (st.extend (buildEvents filePath o.Env.Namespace diag)).fs = st.fs := by
  refine ⟨?_, ?_, isFileOp_buildEvents _ _ _, clusterCalls_buildEvents _ _ _, rfl⟩
  · intro e he
    apply Run_serialize_fail d o st filePath app tm diag ks c _ hl ht hb
    simp only [tagAppConfig] at he
    simp [serialize, he, Errorf]
  · intro encC pre k post e hc hks hpre hk
    constructor
    · apply Run_serialize_fail d o st filePath app tm diag ks c _ hl ht hb
      simp only [tagAppConfig] at hc
      simp only [serialize, hc, hks, marshalComps_fail d pre k post _ e hpre hk]
      simp [Errorf]
    · exact ⟨"marshal service (".toList, (") failed: " ++ e.ErrorString).toList, by
        simp [String.toList, String.append_assoc]⟩

/-- C5 amended, on a concrete run: the encoding of `cache` fails after that of `web`. -/
theorem Run_encoding_failure_witness :
    Run cacheEncoderFails { Kubecli := lookupClient none, Env := demoEnv } emptyState "" =
      (some (.wrapError "marshal service (cache) failed: boom" (.New "boom")),
        emptyState.extend (buildEvents "" "demo" [])) :=
  ((Run_encoding_failure cacheEncoderFails { Kubecli := lookupClient none, Env := demoEnv }
    emptyState "" () () [] [webComp, cacheComp] demoApp rfl rfl rfl).2.1
    "kind: ApplicationConfiguration\nname: app" [webComp] cacheComp [] (.New "boom") rfl rfl
    (by intro x hx; simp at hx; subst hx; exact ⟨_, rfl⟩) rfl).1

/-! ## The order of the pipeline -/

/-- Either `Run` fails before the deploy file is written, having sent nothing to the cluster,
or every step up to the write of the deploy file has succeeded. -/
theorem Run_cases {AppFile TM : Type} (d : Deps AppFile TM) (o : appfileOptions) (st : State)
    (filePath : String) :
    (∃ err, RunFailsWith d o st filePath err) ∨
    (∃ app tm diag ks c cfg c2 ks2,
      loadResult d filePath = .ok app ∧ d.templateLoad = .ok tm ∧
      d.BuildOAM app o.Env.Namespace tm false = (diag, .ok (ks, c)) ∧
      serialize d c ks = .ok (cfg, c2, ks2) ∧
      d.MkdirAll (d.Dir ".vela/deploy.yaml") 0o700 = none ∧
      d.WriteFile ".vela/deploy.yaml" cfg 0o600 = .ok) := by
  cases hl : loadResult d filePath with
  | error err =>
    exact Or.inl ⟨err, by simp [RunFailsWith, Run_load_fail d o st filePath err hl]⟩
  | ok app =>
    cases ht : d.templateLoad with
    | error err =>
      exact Or.inl ⟨err, by
        simp [RunFailsWith, Run_templates_fail d o st filePath app err hl ht]⟩
    | ok tm =>
      rcases hb : d.BuildOAM app o.Env.Namespace tm false with ⟨diag, built⟩
      cases built with
      | error err =>
        exact Or.inl ⟨err, by simp [RunFailsWith,
          Run_build_fail d o st filePath app tm diag err hl ht hb]⟩
      | ok bundle =>
        obtain ⟨ks, c⟩ := bundle
        cases hs : serialize d c ks with
        | error err =>
          exact Or.inl ⟨err, by simp [RunFailsWith,
            Run_serialize_fail d o st filePath app tm diag ks c err hl ht hb hs]⟩
        | ok r =>
          obtain ⟨cfg, c2, ks2⟩ := r
          cases hm : d.MkdirAll (d.Dir ".vela/deploy.yaml") 0o700 with
          | some err =>
            exact Or.inl ⟨err, by simp [RunFailsWith,
              Run_mkdir_fail d o st filePath app tm diag ks c cfg c2 ks2 err hl ht hb hs hm]⟩
          | none =>
            cases hw : d.WriteFile ".vela/deploy.yaml" cfg 0o600 with
            | failed err left =>
              exact Or.inl ⟨err, by simp [RunFailsWith,
                Run_write_fail d o st filePath app tm diag ks c cfg c2 ks2 err left hl ht hb hs
                  hm hw]⟩
            | ok =>
              exact Or.inr ⟨app, tm, diag, ks, c, cfg, c2, ks2, rfl, rfl, hb, hs, rfl, hw⟩

/-- C9 (pipeline order and file system failures): for every run of `Run`,
* if the load of the appfile, the load of the templates, the build, the creation of the
  directory or the write of the file fails, `Run` returns that error and sends nothing to the
  cluster;
* if `Run` sends anything to the cluster, the trace it adds is the steps up to the build, the
  line that announces the write, `MkdirAll`, the `WriteFile` of `.vela/deploy.yaml` with the
  serialized bundle, the line that announces the apply, and then the actions of
  `ApplyAppConfig`: so no cluster request stands before the write; that write has succeeded
  and the file holds exactly the serialized bundle, whatever it held before;
* if every step up to the write succeeds, the file holds exactly the serialized bundle at the
  end of `Run`, whatever it held before, no other file has changed, and `Run` goes on to the
  cluster. -/
theorem Run_pipeline_order {AppFile TM : Type} (d : Deps AppFile TM) (o : appfileOptions)
    (st : State) (filePath : String) :
    (∀ err, loadResult d filePath = .error err → RunFailsWith d o st filePath err) ∧
    (∀ app err, loadResult d filePath = .ok app → d.templateLoad = .error err →
      RunFailsWith d o st filePath err) ∧
    (∀ app tm diag err, loadResult d filePath = .ok app → d.templateLoad = .ok tm →
      d.BuildOAM app o.Env.Namespace tm false = (diag, .error err) →
      RunFailsWith d o st filePath err) ∧
    (∀ app tm diag ks c cfg c2 ks2 err, loadResult d filePath = .ok app →
      d.templateLoad = .ok tm →
      d.BuildOAM app o.Env.Namespace tm false = (diag, .ok (ks, c)) →
      serialize d c ks = .ok (cfg, c2, ks2) →
      d.MkdirAll (d.Dir ".vela/deploy.yaml") 0o700 = some err →
      RunFailsWith d o st filePath err) ∧
    (∀ app tm diag ks c cfg c2 ks2 err left, loadResult d filePath = .ok app →
      d.templateLoad = .ok tm →
      d.BuildOAM app o.Env.Namespace tm false = (diag, .ok (ks, c)) →
      serialize d c ks = .ok (cfg, c2, ks2) →
      d.MkdirAll (d.Dir ".vela/deploy.yaml") 0o700 = none →
      d.WriteFile ".vela/deploy.yaml" cfg 0o600 = .failed err left →
      RunFailsWith d o st filePath err) ∧
    (clusterCalls (emitted st (Run d o st filePath).2) ≠ [] →
      ∃ app tm diag ks c cfg c2 ks2 evs,
        loadResult d filePath = .ok app ∧ d.templateLoad = .ok tm ∧
        d.BuildOAM app o.Env.Namespace tm false = (diag, .ok (ks, c)) ∧
        serialize d c ks = .ok (cfg, c2, ks2) ∧
        d.WriteFile ".vela/deploy.yaml" cfg 0o600 = .ok ∧
        emitted st (Run d o st filePath).2 =
          buildEvents filePath o.Env.Namespace diag ++
          [.Infof "writing deploy config to (.vela/deploy.yaml)\n",
           .MkdirAll (d.Dir ".vela/deploy.yaml") 0o700,
           .WriteFile ".vela/deploy.yaml" cfg 0o600,
           .Infof "\nApplying deploy configs ...\n"] ++ evs ∧
        clusterCalls (buildEvents filePath o.Env.Namespace diag ++
          [.Infof "writing deploy config to (.vela/deploy.yaml)\n",
           .MkdirAll (d.Dir ".vela/deploy.yaml") 0o700]) = [] ∧
        (∀ ev ∈ evs, ev.isFileOp = false) ∧
        evs = emitted
          { trace := st.trace ++
              (buildEvents filePath o.Env.Namespace diag ++ writeEvents d cfg)
            fs := Function.update st.fs ".vela/deploy.yaml" (some cfg) }
          (ApplyAppConfig d o
            { trace := st.trace ++
                (buildEvents filePath o.Env.Namespace diag ++ writeEvents d cfg)
              fs := Function.update st.fs ".vela/deploy.yaml" (some cfg) } c2 ks2).2 ∧
        (Run d o st filePath).2.fs ".vela/deploy.yaml" = some cfg) ∧
    (∀ app tm diag ks c cfg c2 ks2, loadResult d filePath = .ok app →
      d.templateLoad = .ok tm →
      d.BuildOAM app o.Env.Namespace tm false = (diag, .ok (ks, c)) →
      serialize d c ks = .ok (cfg, c2, ks2) →
      d.MkdirAll (d.Dir ".vela/deploy.yaml") 0o700 = none →
      d.WriteFile ".vela/deploy.yaml" cfg 0o600 = .ok →
      (Run d o st filePath).2.fs ".vela/deploy.yaml" = some cfg ∧
      (∀ path, path ≠ ".vela/deploy.yaml" → (Run d o st filePath).2.fs path = st.fs path) ∧
      clusterCalls (emitted st (Run d o st filePath).2) ≠ []) := by
  refine ⟨?_, ?_, ?_, ?_, ?_, ?_, ?_⟩
  · intro err hl
    simp [RunFailsWith, Run_load_fail d o st filePath err hl]
  · intro app err hl ht
    simp [RunFailsWith, Run_templates_fail d o st filePath app err hl ht]
  · intro app tm diag err hl ht hb
    simp [RunFailsWith, Run_build_fail d o st filePath app tm diag err hl ht hb]
  · intro app tm diag ks c cfg c2 ks2 err hl ht hb hs hm
    simp [RunFailsWith,
      Run_mkdir_fail d o st filePath app tm diag ks c cfg c2 ks2 err hl ht hb hs hm]
  · intro app tm diag ks c cfg c2 ks2 err left hl ht hb hs hm hw
    simp [RunFailsWith,
      Run_write_fail d o st filePath app tm diag ks c cfg c2 ks2 err left hl ht hb hs hm hw]
  · intro hne
    rcases Run_cases d o st filePath with ⟨err, _, h⟩ | h
    · exact absurd h hne
    · obtain ⟨app, tm, diag, ks, c, cfg, c2, ks2, hl, ht, hb, hs, hm, hw⟩ := h
      obtain ⟨evs, hfile, hevs, hem, hfs⟩ :=
        Run_after_write d o st filePath app tm diag ks c cfg c2 ks2 hl ht hb hs hm hw
      refine ⟨app, tm, diag, ks, c, cfg, c2, ks2, evs, hl, ht, hb, hs, hw, ?_, ?_, hfile,
        hevs, ?_⟩
      · rw [hem]; rfl
      · simp
      · rw [hfs]; simp
  · intro app tm diag ks c cfg c2 ks2 hl ht hb hs hm hw
    obtain ⟨evs, hfile, hevs, hem, hfs⟩ :=
      Run_after_write d o st filePath app tm diag ks c cfg c2 ks2 hl ht hb hs hm hw
    refine ⟨by rw [hfs]; simp, ?_, ?_⟩
    · intro path hp
      rw [hfs, Function.update_noteq hp]
    · obtain ⟨rest, hrest⟩ := ApplyAppConfig_starts_with_lookup d o
        { trace := st.trace ++ (buildEvents filePath o.Env.Namespace diag ++ writeEvents d cfg)
          fs := Function.update st.fs ".vela/deploy.yaml" (some cfg) } c2 ks2
      rw [hem, hevs, hrest]
      simp

/-- C9 on a concrete run: the file `.vela/deploy.yaml` held `stale`; the run reaches the
cluster, so the file holds the serialized bundle and nothing of `stale`. -/
theorem Run_pipeline_order_witness :
    ∃ cfg, (Run demoDeps { Kubecli := lookupClient none, Env := demoEnv }
      { trace := [], fs := fun _ => some "stale" } "").2.fs ".vela/deploy.yaml" = some cfg ∧
      serialize demoDeps demoApp [webComp, cacheComp] =
        .ok (cfg, tagAppConfig demoApp, [tagComponent webComp, tagComponent cacheComp]) := by
  obtain ⟨app, tm, diag, ks, c, cfg, c2, ks2, evs, _, _, hb, hs, _, _, _, _, _, hfs⟩ :=
    (Run_pipeline_order demoDeps { Kubecli := lookupClient none, Env := demoEnv }
      { trace := [], fs := fun _ => some "stale" } "").2.2.2.2.2.1 (by decide)
  simp only [demoDeps, Prod.mk.injEq, Except.ok.injEq, true_and] at hb
  obtain ⟨_, hks, hc⟩ := hb
  subst hks hc
  refine ⟨cfg, hfs, ?_⟩
  rw [hs]
  have := serialize_inv demoDeps _ _ _ _ _ hs
  rw [this.1, this.2.1]
  rfl

/-! ## The bundle handed to ApplyAppConfig -/

theorem filter_isComponentUpsert_compCalls (cs : List Component) :
    (compCalls cs).filter ClusterCall.isComponentUpsert = compCalls cs := by
  induction cs with
  | nil => rfl
  | cons c cs ih => simp [ClusterCall.isComponentUpsert, ih]

/-- The component upserts of `ApplyAppConfig` are those of the first components of the
bundle, in bundle order. -/
theorem componentUpserts_ApplyAppConfig {AppFile TM : Type} (d : Deps AppFile TM)
    (o : appfileOptions) (st : State) (ac : ApplicationConfiguration)
    (comps : List Component) :
    ∃ n, n ≤ comps.length ∧
      (writes (emitted st (ApplyAppConfig d o st ac comps).2)).filter
        ClusterCall.isComponentUpsert = compCalls (comps.take n) := by
  rcases writes_ApplyAppConfig d o st ac comps with h | h
  · exact ⟨0, Nat.zero_le _, by rw [h]; rfl⟩
  · obtain ⟨n, tail, hn, ht, hs⟩ := applyOutcome_shape o.Kubecli ac comps
      (clusterCalls st.trace ++ [.Get (lookupKey ac)])
    refine ⟨n, hn, ?_⟩
    rw [h, hs, List.filter_append, filter_isComponentUpsert_compCalls]
    rcases ht with ht | ⟨_, ht⟩ <;> subst ht <;> simp [ClusterCall.isComponentUpsert]

/-- C10 (tag injection is the only change, and it reaches the cluster): when every step of
`Run` up to the write of the deploy file succeeds, on the built bundle `c`, `ks`,
* `Run` ends with `ApplyAppConfig` on the bundle `c2`, `ks2` that comes out of the serializer;
* `c2` is `c` with the ApplicationConfiguration tag: namespace, name and component
  references are those of `c`;
* `ks2` has as many components as `ks`, and its component at each index is that of `ks`
  with the Component tag: namespace, name and workload are unchanged;
* the deploy file holds the encoding of `c2` and then the documents of the components of
  `ks2` in order, and the component upserts sent to the cluster are those of the first
  components of `ks2`, in the same order. -/
theorem Run_hands_tagged_bundle {AppFile TM : Type} (d : Deps AppFile TM)
    (o : appfileOptions) (st : State) (filePath : String) (app : AppFile) (tm : TM)
    (diag : List String) (ks : List Component) (c : ApplicationConfiguration) (cfg : String)
    (c2 : ApplicationConfiguration) (ks2 : List Component)
    (hl : loadResult d filePath = .ok app) (ht : d.templateLoad = .ok tm)
    (hb : d.BuildOAM app o.Env.Namespace tm false = (diag, .ok (ks, c)))
    (hs : serialize d c ks = .ok (cfg, c2, ks2))
    (hm : d.MkdirAll (d.Dir ".vela/deploy.yaml") 0o700 = none)
    (hw : d.WriteFile ".vela/deploy.yaml" cfg 0o600 = .ok) :
    Run d o st filePath =
      ApplyAppConfig d o
        { trace := st.trace ++ (buildEvents filePath o.Env.Namespace diag ++ writeEvents d cfg)
          fs := Function.update st.fs ".vela/deploy.yaml" (some cfg) } c2 ks2 ∧
    (c2.TypeMeta = { APIVersion := "core.oam.dev/v1alpha2", Kind := "ApplicationConfiguration" } ∧
      c2.Namespace = c.Namespace ∧ c2.Name = c.Name ∧ c2.Components = c.Components) ∧
    ks2.length = ks.length ∧
    (∀ i (h2 : i < ks2.length) (h1 : i < ks.length),
      ks2[i].TypeMeta = { APIVersion := "core.oam.dev/v1alpha2", Kind := "Component" } ∧
      ks2[i].Namespace = ks[i].Namespace ∧ ks2[i].Name = ks[i].Name ∧
      ks2[i].Workload = ks[i].Workload) ∧
    (∃ encC encs, d.MarshalAppConfig c2 = .ok encC ∧
      List.Forall₂ (fun k e => d.MarshalComponent k = .ok e) ks2 encs ∧
      cfg = encC ++ "\n" ++ componentDocs encs ∧
      (Run d o st filePath).2.fs ".vela/deploy.yaml" = some cfg) ∧
    (∃ n, n ≤ ks2.length ∧
      (writes (emitted st (Run d o st filePath).2)).filter ClusterCall.isComponentUpsert =
        (ks2.take n).map ClusterCall.CreateOrUpdateComponent) := by
  obtain ⟨hc2, hks2, encC, encs, henc, hf, hcfg⟩ := serialize_inv d c ks cfg c2 ks2 hs
  obtain ⟨evs, _, hevs, hem, hfs⟩ :=
    Run_after_write d o st filePath app tm diag ks c cfg c2 ks2 hl ht hb hs hm hw
  refine ⟨Run_write_ok d o st filePath app tm diag ks c cfg c2 ks2 hl ht hb hs hm hw, ?_, ?_,
    ?_, ⟨encC, encs, henc, hf, hcfg, by rw [hfs]; simp⟩, ?_⟩
  · subst hc2; exact ⟨rfl, rfl, rfl, rfl⟩
  · subst hks2; simp
  · intro i h2 h1
    subst hks2
    simp [tagComponent, componentTypeMeta]
  · obtain ⟨n, hn, hcu⟩ := componentUpserts_ApplyAppConfig d o
      { trace := st.trace ++ (buildEvents filePath o.Env.Namespace diag ++ writeEvents d cfg)
        fs := Function.update st.fs ".vela/deploy.yaml" (some cfg) } c2 ks2
    refine ⟨n, hn, ?_⟩
    rw [hem]
    show _ = compCalls (ks2.take n)
    rw [← hcu, ← hevs]
    simp [writes]

/-- C10 on the bundle of the spec: the upserts sent to the cluster are those of the tagged
`web` and `cache` and of the tagged `app`. -/
theorem Run_hands_tagged_bundle_witness :
    writes (emitted emptyState
      (Run demoDeps { Kubecli := lookupClient none, Env := demoEnv } emptyState "").2) =
      [.CreateOrUpdateComponent (tagComponent webComp),
       .CreateOrUpdateComponent (tagComponent cacheComp),
       .CreateOrUpdateAppConfig (tagAppConfig demoApp)] := by
  rw [(Run_hands_tagged_bundle demoDeps { Kubecli := lookupClient none, Env := demoEnv }
    emptyState "" () () [] [webComp, cacheComp] demoApp
    ("kind: ApplicationConfiguration\nname: app\n" ++
      "---\nkind: Component\nname: web\n" ++ "---\nkind: Component\nname: cache\n")
    (tagAppConfig demoApp) [tagComponent webComp, tagComponent cacheComp]
    rfl rfl rfl rfl rfl rfl).1]
  rfl

/-! ## Idempotence on the store -/

theorem clusterAfter_append (s : Cluster) (a b : List ClusterCall) :
    clusterAfter s (a ++ b) = clusterAfter (clusterAfter s a) b := by
  simp [clusterAfter, List.foldl_append]

theorem clusterStep_overlay (s : Cluster) (c : ClusterCall) :
    clusterStep s c = overlay (clusterStep emptyCluster c) s := by
  funext key
  cases c with
  | Get k => simp [clusterStep, overlay, emptyCluster]
  | CreateOrUpdateComponent comp =>
    by_cases hk : key = { kind := .Component, Namespace := comp.Namespace, Name := comp.Name }
    · subst hk
      simp [clusterStep, overlay, upsert]
    · simp [clusterStep, overlay, upsert, hk, emptyCluster]
  | CreateOrUpdateAppConfig ac =>
    by_cases hk : key =
        { kind := .ApplicationConfiguration, Namespace := ac.Namespace, Name := ac.Name }
    · subst hk
      simp [clusterStep, overlay, upsert]
    · simp [clusterStep, overlay, upsert, hk, emptyCluster]

theorem overlay_overlay (a b s : Cluster) : overlay a (overlay b s) = overlay (overlay a b) s := by
  funext key
  simp only [overlay]
  cases a key <;> simp

/-- The store after some requests is the old store overlaid with what the requests wrote. -/
theorem clusterAfter_overlay (s : Cluster) (calls : List ClusterCall) :
    clusterAfter s calls = overlay (clusterAfter emptyCluster calls) s := by
  induction calls generalizing s with
  | nil =>
    funext key
    simp [clusterAfter, overlay, emptyCluster]
  | cons c cs ih =>
    have h1 : clusterAfter s (c :: cs) = clusterAfter (clusterStep s c) cs := rfl
    have h2 : clusterAfter emptyCluster (c :: cs) =
        clusterAfter (clusterStep emptyCluster c) cs := rfl
    rw [h1, h2, ih (clusterStep s c), ih (clusterStep emptyCluster c), clusterStep_overlay s c,
      overlay_overlay]

theorem overlay_self (w s : Cluster) : overlay w (overlay w s) = overlay w s := by
  funext key
  simp only [overlay]
  cases w key <;> simp

/-- Sending the same requests again leaves the store as it is. -/
theorem clusterAfter_twice (s : Cluster) (calls : List ClusterCall) :
    clusterAfter (clusterAfter s calls) calls = clusterAfter s calls := by
  rw [clusterAfter_overlay (clusterAfter s calls) calls, clusterAfter_overlay s calls,
    overlay_self]

theorem clusterAfter_get (s : Cluster) (key : NamespacedName) (calls : List ClusterCall) :
    clusterAfter s (.Get key :: calls) = clusterAfter s calls := rfl

theorem allUpsertsSucceed_storeClient (s0 : Cluster) (nf : Error) (hist : List ClusterCall)
    (ac : ApplicationConfiguration) (comps : List Component) :
    AllUpsertsSucceed (storeClient s0 nf) hist ac comps :=
  ⟨fun _ _ => rfl, rfl⟩

/-- On the store, a run of `ApplyAppConfig` succeeds and sends the lookup, the upserts of all
components and the upsert of the configuration resource. -/
theorem ApplyAppConfig_storeClient {AppFile TM : Type} (d : Deps AppFile TM) (env : EnvMeta)
    (s0 : Cluster) (nf : Error) (hnf : d.IsNotFound nf = true) (st : State)
    (ac : ApplicationConfiguration) (comps : List Component) :
    (ApplyAppConfig d { Kubecli := storeClient s0 nf, Env := env } st ac comps).1 = none ∧
    clusterCalls (ApplyAppConfig d { Kubecli := storeClient s0 nf, Env := env } st ac comps).2.trace
      = clusterCalls st.trace ++
        (.Get (lookupKey ac) :: (compCalls comps ++ [.CreateOrUpdateAppConfig ac])) := by
  have hall := allUpsertsSucceed_storeClient s0 nf
    (clusterCalls st.trace ++ [.Get (lookupKey ac)]) ac comps
  have hlook : ((storeClient s0 nf).Get (clusterCalls st.trace) (lookupKey ac)).2 = none ∨
      ((storeClient s0 nf).Get (clusterCalls st.trace) (lookupKey ac)).2 = some nf := by
    simp only [storeClient]
    split <;> simp
  have hline : ∃ line,
      ApplyAppConfig d { Kubecli := storeClient s0 nf, Env := env } st ac comps =
      ((applyOutcome (storeClient s0 nf) ac comps
          (clusterCalls st.trace ++ [.Get (lookupKey ac)])).1,
        st.extend (lookupEvents ac line ++
          (applyOutcome (storeClient s0 nf) ac comps
            (clusterCalls st.trace ++ [.Get (lookupKey ac)])).2.map Event.Cluster ++
          (if (applyOutcome (storeClient s0 nf) ac comps
              (clusterCalls st.trace ++ [.Get (lookupKey ac)])).1 = none
            then infoEvents d { Kubecli := storeClient s0 nf, Env := env } ac.Name else []))) := by
    rcases hlook with hg | hg
    · exact ⟨_, ApplyAppConfig_proceed d _ st ac comps existedLine (Or.inl ⟨hg, rfl⟩)⟩
    · exact ⟨_, ApplyAppConfig_proceed d _ st ac comps notDeployedLine
        (Or.inr ⟨nf, hg, hnf, rfl⟩)⟩
  obtain ⟨line, hl⟩ := hline
  have hnone := (applyOutcome_none_iff _ _ _ _).mpr hall
  have hcalls := applyOutcome_calls_of_ok _ _ _ _ hall
  simp only [] at hnone hcalls
  rw [hl, hnone, hcalls]
  simp [lookupEvents]

/-- C6 (idempotence of apply on the store): on the store client, whose upserts are
create-if-absent-else-replace, for every bundle and every store to start from (the empty
store among them), running `ApplyAppConfig` again on the same bundle right after a first run
leaves the store as the first run left it, and both runs return no error. -/
theorem ApplyAppConfig_idempotent {AppFile TM : Type} (d : Deps AppFile TM) (env : EnvMeta)
    (s0 : Cluster) (nf : Error) (hnf : d.IsNotFound nf = true) (st : State)
    (ac : ApplicationConfiguration) (comps : List Component) :
    (ApplyAppConfig d { Kubecli := storeClient s0 nf, Env := env } st ac comps).1 = none ∧
    (ApplyAppConfig d { Kubecli := storeClient s0 nf, Env := env }
      (ApplyAppConfig d { Kubecli := storeClient s0 nf, Env := env } st ac comps).2
      ac comps).1 = none ∧
    clusterAfter s0 (clusterCalls
      (ApplyAppConfig d { Kubecli := storeClient s0 nf, Env := env }
        (ApplyAppConfig d { Kubecli := storeClient s0 nf, Env := env } st ac comps).2
        ac comps).2.trace) =
    clusterAfter s0 (clusterCalls
      (ApplyAppConfig d { Kubecli := storeClient s0 nf, Env := env } st ac comps).2.trace) := by
  obtain ⟨h1, t1⟩ := ApplyAppConfig_storeClient d env s0 nf hnf st ac comps
  obtain ⟨h2, t2⟩ := ApplyAppConfig_storeClient d env s0 nf hnf
    (ApplyAppConfig d { Kubecli := storeClient s0 nf, Env := env } st ac comps).2 ac comps
  refine ⟨h1, h2, ?_⟩
  rw [t2, t1, clusterAfter_append, clusterAfter_append, clusterAfter_get, clusterAfter_get,
    clusterAfter_twice]

/-- C6 on the bundle of the spec, from the empty cluster. -/
theorem ApplyAppConfig_idempotent_witness :
    (ApplyAppConfig demoDeps { Kubecli := storeClient emptyCluster notFoundError, Env := demoEnv }
      emptyState demoApp [webComp, cacheComp]).1 = none ∧
    (ApplyAppConfig demoDeps { Kubecli := storeClient emptyCluster notFoundError, Env := demoEnv }
      (ApplyAppConfig demoDeps
        { Kubecli := storeClient emptyCluster notFoundError, Env := demoEnv }
        emptyState demoApp [webComp, cacheComp]).2
      demoApp [webComp, cacheComp]).1 = none ∧
    clusterAfter emptyCluster (clusterCalls
      (ApplyAppConfig demoDeps
        { Kubecli := storeClient emptyCluster notFoundError, Env := demoEnv }
        (ApplyAppConfig demoDeps
          { Kubecli := storeClient emptyCluster notFoundError, Env := demoEnv }
          emptyState demoApp [webComp, cacheComp]).2
        demoApp [webComp, cacheComp]).2.trace) =
    clusterAfter emptyCluster (clusterCalls
      (ApplyAppConfig demoDeps
        { Kubecli := storeClient emptyCluster notFoundError, Env := demoEnv }
        emptyState demoApp [webComp, cacheComp]).2.trace) :=
  ApplyAppConfig_idempotent demoDeps demoEnv emptyCluster notFoundError (by decide) emptyState
    demoApp [webComp, cacheComp]

end Up
